import Mathlib

/-!
Verification of the pyright type-evaluator core: a shallow embedding of the
constraint solver (`assignTypeToTypeVar`, `assignTypeToParamSpec`,
`populateTypeVarContextBasedOnExpectedType`), the narrowing engine
(`getTypeNarrowingCallback` and the per-pattern narrowing functions), and the
parse-tree predicate `isMatchingExpression`, together with theorems about the
properties claimed of them.

The embedded routines are translated from
`packages/pyright-internal/src/analyzer/typeGuards.ts` and
`parseTreeUtils.ts` (the unnamed source part). The type model (`types.ts`),
the type-variable context (`typeVarContext.ts`) and the generic type
utilities (`typeUtils.ts`) are not part of the provided sources; they are
modelled from the specification (sections 3, 4.2 and 6), with each such
definition marked `Modelled from the spec:` in its doc comment. External
collaborators of the core (the assignability judgment, concretisation,
built-in lookups, TypedDict inspection) are capabilities: they are fields of
an `Evaluator` record and are modelled as pure functions. Diagnostic sinks
only produce human-readable messages and are omitted.
-/

namespace PyrightCore

/-- Modelled from the spec: declared variance of a type parameter. -/
inductive Variance where
  | invariant
  | covariant
  | contravariant
deriving DecidableEq, Repr

/-- Modelled from the spec: a literal value carried by a class instance
(bool/int/str/bytes/enum-member). An enum member is identified by its field
name within the enum class. -/
inductive LitVal where
  | boolV (b : Bool)
  | intV (n : Int)
  | strV (s : String)
  | bytesV (s : String)
  | enumV (memberName : String)
deriving DecidableEq, Repr

/-- Modelled from the spec: the per-class flags consulted by the embedded
routines (built-in, final, protocol, TypedDict, tuple, enum, and
derives-from-Any/Unknown). -/
structure ClassFlags where
  builtIn : Bool := false
  finalClass : Bool := false
  protocolClass : Bool := false
  typedDictClass : Bool := false
  tupleClass : Bool := false
  enumClass : Bool := false
  derivesFromAnyOrUnknown : Bool := false
deriving DecidableEq, Repr

/-- Modelled from the spec: a declared type parameter of a generic class
(name, scope identifier of its definition site, declared variance). -/
structure TParam where
  name : String
  scopeId : Option String := none
  variance : Variance := .invariant
deriving DecidableEq, Repr

/-- Modelled from the spec: parameter categories of a function signature. -/
inductive ParamCategory where
  | simple
  | varPositional
  | varKeyword
deriving DecidableEq, Repr

/-- Modelled from the spec: the tagged union of type variants (section 3).
`classTy` carries the fully-qualified name, flags, the instance bit
(instance vs instantiable), declared type parameters, the scope id that owns
those parameters, optional explicit type arguments, optional tuple type
arguments (each paired with its is-unbounded bit), an optional literal
value, the class fields (name, ignored-for-protocol-match bit, effective
type of the symbol), an unpacked bit, and a condition list (empty meaning no
condition). `typeVarTy` carries the TypeVar details of section 3; `funcTy`
carries the parameter list (category, name, name-synthesized bit,
has-default bit, declared type), a flags word, the scope id of its type
variables, and an optional bound param-spec reference. Conditions are
condition identifiers; an empty list models an absent condition. -/
inductive Ty where
  | classTy
      (name : String) (flags : ClassFlags) (isInstance : Bool)
      (typeParams : List TParam)
      (typeVarScopeId : Option String)
      (typeArgs : Option (List Ty))
      (tupleArgs : Option (List (Ty × Bool)))
      (literal : Option LitVal)
      (fields : List (String × Bool × Ty))
      (isUnpacked : Bool)
      (condition : List Nat)
  | funcTy
      (params : List (ParamCategory × Option String × Bool × Bool × Ty))
      (flags : Nat)
      (typeVarScopeId : Option String)
      (paramSpecRef : Option Ty)
  | typeVarTy
      (name : String) (scopeId : Option String)
      (bound : Option Ty) (constraints : List Ty)
      (variance : Variance)
      (isParamSpec isVariadic isSynthesized isSynthesizedSelf : Bool)
      (synthesizedIndex : Option Nat)
      (isInstance : Bool)
      (isUnpacked : Bool)
      (condition : List Nat)
  | unionTy (subtypes : List Ty)
  | moduleTy
  | noneTy (isInstance : Bool) (condition : List Nat)
  | anyTy
  | unknownTy
  | neverTy

/-- Modelled from the spec: the recursion bound threaded through every
recursive entry of the solver and the narrowing engine. The numeric value is
declared next to the type model, which is outside the provided sources; no
theorem below depends on the exact value. -/
def maxTypeRecursionCount : Nat := 16

/-- Maximum number of unioned subtypes for an inferred type before the type
is widened; from `maxSubtypesForInferredType` in the evaluator-types source
(unnamed part 000). -/
def maxSubtypesForInferredType : Nat := 64

namespace Ty

/-- Modelled from the spec: list of subtypes of a type; a non-union type is
its own single subtype (invariant I1 keeps unions flat). -/
def subtypesOf : Ty → List Ty
  | .unionTy l => l
  | t => [t]

/-- Modelled from the spec: category test for union types. -/
def isUnion : Ty → Bool
  | .unionTy _ => true
  | _ => false

/-- Modelled from the spec: category test for TypeVar types. -/
def isTypeVar : Ty → Bool
  | .typeVarTy .. => true
  | _ => false

/-- Modelled from the spec: category test for class types (instantiable or
instance). -/
def isClass : Ty → Bool
  | .classTy .. => true
  | _ => false

/-- Modelled from the spec: a class type whose instance bit is set. -/
def isClassInstance : Ty → Bool
  | .classTy _ _ isInstance _ _ _ _ _ _ _ _ => isInstance
  | _ => false

/-- Modelled from the spec: a class type whose instance bit is clear. -/
def isInstantiableClass : Ty → Bool
  | .classTy _ _ isInstance _ _ _ _ _ _ _ _ => !isInstance
  | _ => false

/-- Modelled from the spec: the Any type alone. -/
def isAnyExactly : Ty → Bool
  | .anyTy => true
  | _ => false

/-- Modelled from the spec: Any or Unknown. -/
def isAnyOrUnknown : Ty → Bool
  | .anyTy => true
  | .unknownTy => true
  | _ => false

/-- Modelled from the spec: the Unknown type. -/
def isUnknown : Ty → Bool
  | .unknownTy => true
  | _ => false

/-- Modelled from the spec: the Never type. -/
def isNever : Ty → Bool
  | .neverTy => true
  | _ => false

/-- Modelled from the spec: the None type with its instance bit set. -/
def isNoneInstance : Ty → Bool
  | .noneTy isInstance _ => isInstance
  | _ => false

/-- Modelled from the spec: function category test. -/
def isFunction : Ty → Bool
  | .funcTy .. => true
  | _ => false

/-- Modelled from the spec: the instantiable bit of a type (class-qua-class
vs instance); Any/Unknown/Never/Module are treated as instantiable in the
source type model, and unions are not. -/
def isInstantiable : Ty → Bool
  | .classTy _ _ isInstance _ _ _ _ _ _ _ _ => !isInstance
  | .typeVarTy _ _ _ _ _ _ _ _ _ _ isInstance _ _ => !isInstance
  | .noneTy isInstance _ => !isInstance
  | .unionTy _ => false
  | .funcTy .. => false
  | _ => true

/-- Modelled from the spec: the unpacked bit of a type (variadic TypeVar or
unpacked tuple forms). -/
def isUnpacked : Ty → Bool
  | .classTy _ _ _ _ _ _ _ _ _ isUnpacked _ => isUnpacked
  | .typeVarTy _ _ _ _ _ _ _ _ _ _ _ isUnpacked _ => isUnpacked
  | _ => false

/-- Modelled from the spec: the condition list attached to a type; the empty
list models an absent condition. -/
def getTypeCondition : Ty → List Nat
  | .classTy _ _ _ _ _ _ _ _ _ _ condition => condition
  | .typeVarTy _ _ _ _ _ _ _ _ _ _ _ _ condition => condition
  | .noneTy _ condition => condition
  | _ => []

/-- Modelled from the spec: attach a condition list to a type (no-op for an
empty condition or for a variant that carries no conditions); conditions of
the receiving type are combined with the new ones. -/
def addConditionToType (t : Ty) (condition : List Nat) : Ty :=
  if condition.isEmpty then t
  else
    match t with
    | .classTy n f i tp sc ta tu l fl u c =>
        .classTy n f i tp sc ta tu l fl u (c ++ condition)
    | .typeVarTy n s b cs v ps vd sy ss si ii u c =>
        .typeVarTy n s b cs v ps vd sy ss si ii u (c ++ condition)
    | .noneTy i c => .noneTy i (c ++ condition)
    | other => other

/-- Modelled from the spec: the literal value of a class type, when any. -/
def literalValue : Ty → Option LitVal
  | .classTy _ _ _ _ _ _ _ l _ _ _ => l
  | _ => none

/-- Modelled from the spec: whether a class type is the named built-in
class (built-in flag set and matching fully-qualified name). -/
def isBuiltInClass (t : Ty) (n : String) : Bool :=
  match t with
  | .classTy name flags _ _ _ _ _ _ _ _ _ => flags.builtIn && name == n
  | _ => false

/-- Modelled from the spec: two class types share the same generic class
when their fully-qualified names agree. -/
def isSameGenericClass : Ty → Ty → Bool
  | .classTy n₁ _ _ _ _ _ _ _ _ _ _, .classTy n₂ _ _ _ _ _ _ _ _ _ _ => n₁ == n₂
  | _, _ => false

end Ty

open Ty

/-- Modelled from the spec: structural type equality, bounded by the
recursion counter exactly as in the source type model (the source returns
true once the counter exceeds `maxTypeRecursionCount`); unions compare
order-independently with equal lengths. -/
def isTypeSameFuel : Nat → Ty → Ty → Bool
  | 0, _, _ => true
  | fuel + 1, a, b =>
    match a, b with
    | .classTy n₁ f₁ i₁ tp₁ sc₁ ta₁ tu₁ l₁ fl₁ u₁ c₁,
      .classTy n₂ f₂ i₂ tp₂ sc₂ ta₂ tu₂ l₂ fl₂ u₂ c₂ =>
        n₁ == n₂ && f₁ == f₂ && i₁ == i₂ && tp₁ == tp₂ && sc₁ == sc₂ &&
        (match ta₁, ta₂ with
         | none, none => true
         | some xs, some ys =>
             xs.length == ys.length &&
             (xs.zip ys).all fun p => isTypeSameFuel fuel p.1 p.2
         | _, _ => false) &&
        (match tu₁, tu₂ with
         | none, none => true
         | some xs, some ys =>
             xs.length == ys.length &&
             (xs.zip ys).all fun p => isTypeSameFuel fuel p.1.1 p.2.1 && p.1.2 == p.2.2
         | _, _ => false) &&
        l₁ == l₂ &&
        (fl₁.length == fl₂.length &&
         (fl₁.zip fl₂).all fun p =>
           p.1.1 == p.2.1 && p.1.2.1 == p.2.2.1 && isTypeSameFuel fuel p.1.2.2 p.2.2.2) &&
        u₁ == u₂ && c₁ == c₂
    | .funcTy ps₁ fl₁ sc₁ pr₁, .funcTy ps₂ fl₂ sc₂ pr₂ =>
        (ps₁.length == ps₂.length &&
         (ps₁.zip ps₂).all fun p =>
           p.1.1 == p.2.1 && p.1.2.1 == p.2.2.1 && p.1.2.2.1 == p.2.2.2.1 &&
           p.1.2.2.2.1 == p.2.2.2.2.1 && isTypeSameFuel fuel p.1.2.2.2.2 p.2.2.2.2.2) &&
        fl₁ == fl₂ && sc₁ == sc₂ &&
        (match pr₁, pr₂ with
         | none, none => true
         | some x, some y => isTypeSameFuel fuel x y
         | _, _ => false)
    | .typeVarTy n₁ s₁ b₁ cs₁ v₁ ps₁ vd₁ sy₁ ss₁ si₁ ii₁ u₁ c₁,
      .typeVarTy n₂ s₂ b₂ cs₂ v₂ ps₂ vd₂ sy₂ ss₂ si₂ ii₂ u₂ c₂ =>
        n₁ == n₂ && s₁ == s₂ &&
        (match b₁, b₂ with
         | none, none => true
         | some x, some y => isTypeSameFuel fuel x y
         | _, _ => false) &&
        (cs₁.length == cs₂.length &&
         (cs₁.zip cs₂).all fun p => isTypeSameFuel fuel p.1 p.2) &&
        v₁ == v₂ && ps₁ == ps₂ && vd₁ == vd₂ && sy₁ == sy₂ && ss₁ == ss₂ &&
        si₁ == si₂ && ii₁ == ii₂ && u₁ == u₂ && c₁ == c₂
    | .unionTy l₁, .unionTy l₂ =>
        l₁.length == l₂.length &&
        l₁.all fun s => l₂.any fun t => isTypeSameFuel fuel s t
    | .moduleTy, .moduleTy => true
    | .noneTy i₁ c₁, .noneTy i₂ c₂ => i₁ == i₂ && c₁ == c₂
    | .anyTy, .anyTy => true
    | .unknownTy, .unknownTy => true
    | .neverTy, .neverTy => true
    | _, _ => false

/-- Modelled from the spec: structural type equality at the default
recursion budget. -/
def isTypeSame (a b : Ty) : Bool :=
  isTypeSameFuel (maxTypeRecursionCount + 1) a b

/-- Modelled from the spec: build a union from a list of subtypes — Never
subtypes are dropped, nested unions are flattened (invariant I1), duplicate
subtypes (by structural equality) are kept once, an empty result is Never
and a singleton result is unwrapped. -/
def combineTypes (subtypes : List Ty) : Ty :=
  let expanded := subtypes.flatMap subtypesOf
  let filtered := expanded.filter fun t => !t.isNever
  let deduped := filtered.foldl
    (fun acc t => if acc.any fun u => isTypeSame u t then acc else acc ++ [t]) []
  match deduped with
  | [] => .neverTy
  | [t] => t
  | l => .unionTy l

/-- Modelled from the spec: apply a partial transform to every subtype of a
type; dropped subtypes are removed and the remainder recombined, a fully
dropped non-union becomes Never. -/
def mapSubtypes (t : Ty) (f : Ty → Option Ty) : Ty :=
  match t with
  | .unionTy l => combineTypes (l.filterMap f)
  | other => (f other).getD .neverTy

/-- Modelled from the spec: strip the literal value from a class-instance
subtype (invariant I1 keeps unions one level deep, so a single level of
mapping reaches every class instance). -/
def stripLiteralValueAtom : Ty → Ty
  | .classTy n f i tp sc ta tu _ fl u c => .classTy n f i tp sc ta tu none fl u c
  | other => other

/-- Modelled from the spec: strip literal values from every subtype. -/
def stripLiteralValue (t : Ty) : Ty :=
  match t with
  | .unionTy l => combineTypes (l.map stripLiteralValueAtom)
  | other => stripLiteralValueAtom other

/-- Modelled from the spec: a class instance carrying a literal value. -/
def isLiteralType (t : Ty) : Bool :=
  t.isClassInstance && (t.literalValue).isSome

/-- Modelled from the spec: a literal class instance, or a union all of
whose subtypes are literal class instances. -/
def isLiteralTypeOrUnion (t : Ty) : Bool :=
  match t with
  | .unionTy l => l.all isLiteralType
  | other => isLiteralType other

/-- Modelled from the spec: whether a type contains a literal class
instance; bounded by the recursion counter exactly as in the source (false
once the budget is exhausted). -/
def containsLiteralTypeFuel : Nat → Ty → Bool
  | 0, _ => false
  | fuel + 1, t =>
    if isLiteralType t then true
    else
      match t with
      | .unionTy l => l.any fun s => containsLiteralTypeFuel fuel s
      | _ => false

/-- Modelled from the spec: `containsLiteralType` at the default budget. -/
def containsLiteralType (t : Ty) : Bool :=
  containsLiteralTypeFuel (maxTypeRecursionCount + 1) t

/-- Modelled from the spec: whether a type is Unknown or has an Unknown
part; bounded by the recursion counter exactly as in the source (false once
the budget is exhausted). -/
def isPartlyUnknownFuel : Nat → Ty → Bool
  | 0, _ => false
  | fuel + 1, t =>
    if t.isUnknown then true
    else
      match t with
      | .unionTy l => l.any fun s => isPartlyUnknownFuel fuel s
      | .classTy _ _ _ _ _ (some args) _ _ _ _ _ =>
          args.any fun s => isPartlyUnknownFuel fuel s
      | _ => false

/-- Modelled from the spec: `isPartlyUnknown` at the default budget. -/
def isPartlyUnknown (t : Ty) : Bool :=
  isPartlyUnknownFuel (maxTypeRecursionCount + 1) t

/-- Modelled from the spec: convert a type to its instance form (clear the
instance-ness of a class, TypeVar or None form one level down; unions map
over their subtypes). -/
def convertToInstanceAtom : Ty → Ty
  | .classTy n f _ tp sc ta tu l fl u c => .classTy n f true tp sc ta tu l fl u c
  | .typeVarTy n s b cs v ps vd sy ss si _ u c =>
      .typeVarTy n s b cs v ps vd sy ss si true u c
  | .noneTy _ c => .noneTy true c
  | other => other

/-- Modelled from the spec: convert a type to instance form. -/
def convertToInstance (t : Ty) : Ty :=
  match t with
  | .unionTy l => combineTypes (l.map convertToInstanceAtom)
  | other => convertToInstanceAtom other

/-- Modelled from the spec: convert a type to instantiable form. -/
def convertToInstantiableAtom : Ty → Ty
  | .classTy n f _ tp sc ta tu l fl u c => .classTy n f false tp sc ta tu l fl u c
  | .typeVarTy n s b cs v ps vd sy ss si _ u c =>
      .typeVarTy n s b cs v ps vd sy ss si false u c
  | .noneTy _ c => .noneTy false c
  | other => other

/-- Modelled from the spec: convert a type to instantiable form. -/
def convertToInstantiable (t : Ty) : Ty :=
  match t with
  | .unionTy l => combineTypes (l.map convertToInstantiableAtom)
  | other => convertToInstantiableAtom other

/-- Modelled from the spec: whether a type can be converted to an instance
(every subtype is instantiable, or is Any/Unknown). -/
def isEffectivelyInstantiable (t : Ty) : Bool :=
  (t.subtypesOf).all fun s => s.isInstantiable || s.isAnyOrUnknown

/-- Modelled from the spec: whether a class type derives from Any or
Unknown (a recorded class flag in this model). -/
def classDerivesFromAnyOrUnknown : Ty → Bool
  | .classTy _ flags _ _ _ _ _ _ _ _ _ => flags.derivesFromAnyOrUnknown
  | _ => false

/-- Modelled from the spec: whether a class type is a TypedDict class. -/
def isTypedDictClass : Ty → Bool
  | .classTy _ flags _ _ _ _ _ _ _ _ _ => flags.typedDictClass
  | _ => false

/-- Modelled from the spec: whether a class type is a tuple class. -/
def isTupleClass : Ty → Bool
  | .classTy _ flags _ _ _ _ _ _ _ _ _ => flags.tupleClass
  | _ => false

/-- Modelled from the spec: whether a class type is an enum class. -/
def isEnumClass : Ty → Bool
  | .classTy _ flags _ _ _ _ _ _ _ _ _ => flags.enumClass
  | _ => false

/-- Modelled from the spec: a tuple class with an unbounded element among
its tuple type arguments (invariant I6). -/
def isUnboundedTupleClass : Ty → Bool
  | .classTy _ _ _ _ _ _ (some tupleArgs) _ _ _ _ => tupleArgs.any (·.2)
  | _ => false

/-- Modelled from the spec: the tuple type arguments of a class type. -/
def tupleTypeArguments : Ty → Option (List (Ty × Bool))
  | .classTy _ _ _ _ _ _ tu _ _ _ _ => tu
  | _ => none

/-- Modelled from the spec: the explicit type arguments of a class type. -/
def typeArguments : Ty → Option (List Ty)
  | .classTy _ _ _ _ _ ta _ _ _ _ _ => ta
  | _ => none

/-- Modelled from the spec: whether two literal class instances carry the
same literal value. -/
def isLiteralValueSame (a b : Ty) : Bool :=
  match a.literalValue, b.literalValue with
  | some x, some y => x == y
  | _, _ => false

/-- Modelled from the spec: specialise a tuple class with the given tuple
type arguments (used to package a source into a synthetic unpacked tuple
for a variadic destination). -/
def specializeTupleClass (tupleClass : Ty) (args : List (Ty × Bool))
    (isUnpackedTuple : Bool) : Ty :=
  match tupleClass with
  | .classTy n f i tp sc _ _ l fl _ c =>
      .classTy n f i tp sc (some (args.map (·.1))) (some args) l fl isUnpackedTuple c
  | other => other

/-- Modelled from the spec: argument categories of call and index items. -/
inductive ArgCategory where
  | simple
  | unpackedList
  | unpackedDict
deriving DecidableEq, Repr

/-- Modelled from the spec: unary operators distinguished by the embedded
routines (arithmetic negation, logical not, and the rest). -/
inductive UnaryOp where
  | negate
  | notOp
  | otherUnary
deriving DecidableEq, Repr

/-- Modelled from the spec: binary operators distinguished by the embedded
routines. -/
inductive BinOp where
  | isOp
  | isNot
  | equals
  | notEquals
  | inOp
  | notIn
  | otherBin
deriving DecidableEq, Repr

/-- Modelled from the spec: the parse-node shapes consumed by the embedded
routines (section 6). An index item carries its argument category, optional
keyword name, and value expression. A string-list node carries its string
parts, each tagged with whether it is a plain string node (as opposed to a
format string). -/
inductive Expr where
  | name (value : String)
  | memberAccess (leftExpression : Expr) (memberName : String)
  | indexExpr (baseExpression : Expr)
      (items : List (ArgCategory × Option String × Expr)) (trailingComma : Bool)
  | callExpr (leftExpression : Expr)
      (args : List (ArgCategory × Option String × Expr))
  | numberLit (value : Int) (isInteger : Bool) (isImaginary : Bool)
  | stringListLit (strings : List (Bool × String))
  | unaryOp (operator : UnaryOp) (expression : Expr)
  | binaryOp (operator : BinOp) (leftExpression : Expr) (rightExpression : Expr)
  | constantNone
  | assignmentExpr (targetName : String) (rightExpression : Expr)
  | otherExpr

/-- Test for the `None` constant node. -/
def Expr.isConstantNone : Expr → Bool
  | .constantNone => true
  | _ => false

/-- Structural matching of a reference expression against a candidate
expression, translated from `isMatchingExpression` in the parse-tree
utilities source (unnamed part 001, lines 1032-1113). The candidate's index
item shape is validated (single simple unnamed item whose value is an
integer number, a negated integer number, or a single-part string list);
the reference's first index item is compared by value. The source reads the
reference's first item without checking its shape; a reference index with
no items would fault in the source and is mapped to false here (the parser
never produces an empty index item list). -/
def isMatchingExpression (reference expression : Expr) : Bool :=
  match reference, expression with
  | .name refValue, .name exprValue => refValue == exprValue
  | .name refValue, .assignmentExpr targetName _ => refValue == targetName
  | .name _, _ => false
  | .memberAccess refLeft refMember, .memberAccess exprLeft exprMember =>
      isMatchingExpression refLeft exprLeft && refMember == exprMember
  | .indexExpr refBase refItems _, .indexExpr exprBase exprItems exprTrailing =>
      if !isMatchingExpression refBase exprBase then false
      else
        match exprItems with
        | [(exprCat, exprName, exprScalar)] =>
          if exprTrailing || exprName.isSome || exprCat != ArgCategory.simple then false
          else
            match refItems with
            | (_, _, refScalar) :: _ =>
              match refScalar with
              | .numberLit refVal _ _ =>
                  (match exprScalar with
                   | .numberLit exprVal exprIsInt exprIsImag =>
                       if exprIsImag || !exprIsInt then false else refVal == exprVal
                   | _ => false)
              | .unaryOp .negate (.numberLit refVal _ _) =>
                  (match exprScalar with
                   | .unaryOp .negate (.numberLit exprVal exprIsInt exprIsImag) =>
                       if exprIsImag || !exprIsInt then false else refVal == exprVal
                   | _ => false)
              | .stringListLit refStrings =>
                  (match refStrings, exprScalar with
                   | [(true, refStr)], .stringListLit [(true, exprStr)] =>
                       refStr == exprStr
                   | _, _ => false)
              | _ => false
            | [] => false
        | _ => false
  | _, _ => false

/-- Function parameter data: category, name, name-synthesized bit,
has-default bit, declared type (the shape stored in `funcTy`). -/
abbrev FuncParam := ParamCategory × Option String × Bool × Bool × Ty

/-- Modelled from the spec: the value bound to a parameter specification
(parameter list, flags word, scope id of its type variables, docstring, and
an optional residual param-spec reference). -/
structure ParamSpecValue where
  parameters : List FuncParam
  flags : Nat
  typeVarScopeId : Option String
  docString : Option String
  paramSpec : Option Ty

/-- Modelled from the spec: the detail record of a TypeVar as the solver
receives it (the destination of `assignTypeToTypeVar` is typed as a TypeVar
in the source). -/
structure TypeVarType where
  name : String
  scopeId : Option String := none
  bound : Option Ty := none
  constraints : List Ty := []
  variance : Variance := .invariant
  isParamSpec : Bool := false
  isVariadic : Bool := false
  isSynthesized : Bool := false
  isSynthesizedSelf : Bool := false
  synthesizedIndex : Option Nat := none
  isInstance : Bool := true
  isUnpackedTv : Bool := false
  condition : List Nat := []

/-- View of a TypeVar record as a type. -/
def TypeVarType.toTy (tv : TypeVarType) : Ty :=
  .typeVarTy tv.name tv.scopeId tv.bound tv.constraints tv.variance tv.isParamSpec
    tv.isVariadic tv.isSynthesized tv.isSynthesizedSelf tv.synthesizedIndex
    tv.isInstance tv.isUnpackedTv tv.condition

/-- View of a TypeVar type as a TypeVar record. -/
def Ty.asTypeVar : Ty → Option TypeVarType
  | .typeVarTy n s b cs v ps vd sy ss si ii u c =>
      some ⟨n, s, b, cs, v, ps, vd, sy, ss, si, ii, u, c⟩
  | _ => none

/-- Modelled from the spec: one type-variable binding in a context —
identity key (name and scope id), narrow bound, wide bound, and the
retain-literals bit. -/
structure TypeVarEntry where
  tvName : String
  tvScopeId : Option String
  narrowBound : Option Ty
  wideBound : Option Ty
  retainLiterals : Bool

/-- Modelled from the spec (section 4.2): the type-variable context — a set
of solve-for scope ids, type-variable bindings, parameter-specification
bindings, and the locked flag. Writes on a locked context are prevented by
the solver's own guards (the spec phrases the locked no-op as holding "for
assignment callers"), so `setTypeVarType` itself is a plain replacement. -/
structure TypeVarContext where
  solveForScopes : List String
  typeVars : List TypeVarEntry := []
  paramSpecs : List ((String × Option String) × ParamSpecValue) := []
  locked : Bool := false

namespace TypeVarContext

/-- Modelled from the spec: a fresh context solving for one optional
scope. -/
def create (scopeId : Option String) : TypeVarContext :=
  { solveForScopes := scopeId.toList }

/-- Modelled from the spec: membership test on the solve-for set. -/
def hasSolveForScope (ctx : TypeVarContext) (scopeId : String) : Bool :=
  ctx.solveForScopes.contains scopeId

/-- Modelled from the spec: the locked flag. -/
def isLocked (ctx : TypeVarContext) : Bool :=
  ctx.locked

/-- Modelled from the spec: seal the context against further writes. -/
def lock (ctx : TypeVarContext) : TypeVarContext :=
  { ctx with locked := true }

/-- Modelled from the spec: look up the binding of a type variable by its
identity key. -/
def getTypeVar (ctx : TypeVarContext) (tv : TypeVarType) : Option TypeVarEntry :=
  ctx.typeVars.find? fun e => e.tvName == tv.name && e.tvScopeId == tv.scopeId

/-- Modelled from the spec: the narrow bound of a binding, else its wide
bound (the resolved value of a type variable). -/
def getTypeVarType (ctx : TypeVarContext) (tv : TypeVarType) : Option Ty :=
  match ctx.getTypeVar tv with
  | none => none
  | some e => e.narrowBound.orElse fun _ => e.wideBound

/-- Modelled from the spec: replace (or add) the binding of a type
variable. -/
def setTypeVarType (ctx : TypeVarContext) (tv : TypeVarType)
    (narrowBound wideBound : Option Ty) (retainLiterals : Bool) : TypeVarContext :=
  let entry : TypeVarEntry :=
    ⟨tv.name, tv.scopeId, narrowBound, wideBound, retainLiterals⟩
  { ctx with typeVars := entry :: ctx.typeVars.filter fun e =>
      !(e.tvName == tv.name && e.tvScopeId == tv.scopeId) }

/-- Modelled from the spec: the retain-literals bit recorded for a type
variable. -/
def getRetainLiterals (ctx : TypeVarContext) (tv : TypeVarType) : Bool :=
  match ctx.getTypeVar tv with
  | none => false
  | some e => e.retainLiterals

/-- Modelled from the spec: look up a parameter-specification binding. -/
def getParamSpec (ctx : TypeVarContext) (tv : TypeVarType) : Option ParamSpecValue :=
  (ctx.paramSpecs.find? fun e => e.1 == (tv.name, tv.scopeId)).map (·.2)

/-- Modelled from the spec: record a parameter-specification binding. -/
def setParamSpec (ctx : TypeVarContext) (tv : TypeVarType)
    (value : ParamSpecValue) : TypeVarContext :=
  { ctx with paramSpecs := ((tv.name, tv.scopeId), value) ::
      ctx.paramSpecs.filter fun e => !(e.1 == (tv.name, tv.scopeId)) }

end TypeVarContext

/-- Modelled from the spec: the flag set accepted by the solver. -/
structure AssignFlags where
  reverseTypeVarMatching : Bool := false
  skipSolveTypeVars : Bool := false
  ignoreTypeVarScope : Bool := false
  allowTypeVarNarrowing : Bool := false
  retainLiteralsForTypeVar : Bool := false
  populatingExpectedType : Bool := false
  skipFunctionReturnTypeCheck : Bool := false
deriving DecidableEq, Repr

/-- Modelled from the spec: the default (empty) flag set. -/
def AssignFlags.default : AssignFlags := {}

/-- Modelled from the spec: the masking `flags & IgnoreTypeVarScope`
performed at several solver call sites. -/
def AssignFlags.ignoreScopeOnly (flags : AssignFlags) : AssignFlags :=
  { ignoreTypeVarScope := flags.ignoreTypeVarScope }

/-- Modelled from the spec: one declared TypedDict entry as returned by the
TypedDict-inspection capability (value type, required bit, provided bit). -/
structure TDEntry where
  valueType : Ty
  isRequired : Bool := true
  isProvided : Bool := false

/-- Modelled from the spec (section 6): the external capabilities consumed
by the core. The assignability judgment and its context-threading form, the
concretisation function, built-in lookups, TypedDict inspection, expression
typing, the expected-type transform for constructors, and the
param-spec-to-function conversion are all passed in; the core never
constructs them. They are modelled as pure functions: mutation of a context
by the external judgment is returned, not performed in place. -/
structure Evaluator where
  assignType : Ty → Ty → AssignFlags → Nat → Bool
  assignTypeCtx : Ty → Ty → TypeVarContext → AssignFlags → Bool × TypeVarContext
  makeTopLevelTypeVarsConcrete : Ty → Ty
  objectType : Option Ty
  tupleClassType : Option Ty
  getTypedDictMembers : Ty → List (String × TDEntry)
  getTypeOfExpression : Expr → Ty
  transformExpectedTypeForConstructor : Ty → TypeVarContext → List String → Option Ty
  convertParamSpecValueToType : ParamSpecValue → Ty

/-- Modelled from the spec: recursive-alias placeholders are resolved
lazily at the evaluator boundary and are not a variant of the modelled
type, so the transform is the identity here. -/
def transformPossibleRecursiveTypeAlias (t : Ty) : Ty := t

/-- Modelled from the spec (section 6): apply a callback to every subtype,
expanding top-level TypeVar subtypes through the concretisation capability;
the callback receives the expanded subtype and the unexpanded original, and
dropped results are removed before recombining. -/
def mapSubtypesExpandTypeVars (ev : Evaluator) (t : Ty)
    (f : Ty → Ty → Option Ty) : Ty :=
  combineTypes ((t.subtypesOf).flatMap fun unexpanded =>
    if unexpanded.isTypeVar then
      ((ev.makeTopLevelTypeVarsConcrete unexpanded).subtypesOf).filterMap fun expanded =>
        f expanded unexpanded
    else
      (f unexpanded unexpanded).toList)

/-- Narrowing for an `x is None` style test, translated from
`narrowTypeForIsNone` (typeGuards.ts lines 842-880): Any/Unknown subtypes
pass through in both branches, an `object` instance positive-narrows to a
None instance carrying the subtype's condition, a None instance is kept
exactly when the test is positive, and everything else is dropped in the
positive branch and kept in the negative branch; unconstrained TypeVar
subtypes are reported unexpanded. This is the per-subtype callback of the
source function. -/
def isNoneSubtypeMap (isPositiveTest : Bool) (subtype unexpandedSubtype : Ty) :
    Option Ty :=
  if subtype.isAnyOrUnknown then
    some subtype
  else
    let adjustedSubtype :=
      match unexpandedSubtype.asTypeVar with
      | some tv => if tv.constraints.isEmpty then unexpandedSubtype else subtype
      | none => subtype
    if subtype.isClassInstance && subtype.isBuiltInClass "object" then
      if isPositiveTest then
        some (addConditionToType (.noneTy true []) subtype.getTypeCondition)
      else
        some adjustedSubtype
    else if subtype.isNoneInstance == isPositiveTest then
      some subtype
    else
      none

/-- Narrowing for an `x is None` style test, translated from
`narrowTypeForIsNone` (typeGuards.ts lines 842-880): recursive aliases are
resolved, TypeVar subtypes are expanded, and each subtype passes through
the per-subtype callback above. -/
def narrowTypeForIsNone (ev : Evaluator) (type : Ty) (isPositiveTest : Bool) : Ty :=
  let expandedType := mapSubtypes type fun subtype =>
    some (transformPossibleRecursiveTypeAlias subtype)
  mapSubtypesExpandTypeVars ev expandedType (isNoneSubtypeMap isPositiveTest)

/-- Clone of a class type with a replaced literal value (the
`ClassType.cloneWithLiteral` helper of the type model). -/
def cloneWithLiteral (t : Ty) (value : Option LitVal) : Ty :=
  match t with
  | .classTy n f i tp sc ta tu _ fl u c => .classTy n f i tp sc ta tu value fl u c
  | other => other

/-- Class fields accessor (name, ignored-for-protocol-match bit, effective
type of the symbol). -/
def fieldsOf : Ty → List (String × Bool × Ty)
  | .classTy _ _ _ _ _ _ _ _ fl _ _ => fl
  | _ => []

/-- Enumeration of all literal forms of a class, translated from
`enumerateLiteralsForType` (typeGuards.ts lines 1822-1852): for bool the
literals True and False; for an enum class, the effective types of those
fields that are not ignored for protocol matching and whose effective type
is an instance of the same class carrying a literal value; absent
otherwise. The effective type of a field symbol is read from the stored
field type (the symbol-typing capability of the evaluator). -/
def enumerateLiteralsForType (type : Ty) : Option (List Ty) :=
  if type.isBuiltInClass "bool" then
    some [cloneWithLiteral type (some (.boolV true)),
          cloneWithLiteral type (some (.boolV false))]
  else if isEnumClass type then
    some ((fieldsOf type).filterMap fun field =>
      if field.2.1 then none
      else
        let symbolType := field.2.2
        if symbolType.isClassInstance && isSameGenericClass type symbolType &&
            (symbolType.literalValue).isSome then
          some symbolType
        else
          none)
  else
    none

/-- Narrowing for a comparison against a literal, translated from
`narrowTypeForLiteralComparison` (typeGuards.ts lines 1784-1820). -/
def narrowTypeForLiteralComparison (ev : Evaluator) (referenceType : Ty)
    (literalType : Ty) (isPositiveTest : Bool) (isIsOperator : Bool) : Ty :=
  mapSubtypes referenceType fun subtype₀ =>
    let subtype := ev.makeTopLevelTypeVarsConcrete subtype₀
    if subtype.isClassInstance && isSameGenericClass literalType subtype then
      if (subtype.literalValue).isSome then
        let literalValueMatches := isLiteralValueSame subtype literalType
        if (literalValueMatches && !isPositiveTest) ||
            (!literalValueMatches && isPositiveTest) then
          none
        else
          some subtype
      else if isPositiveTest then
        some literalType
      else
        match enumerateLiteralsForType subtype with
        | some allLiteralTypes =>
            if allLiteralTypes.length > 0 then
              some (combineTypes
                (allLiteralTypes.filter fun t => !isLiteralValueSame t literalType))
            else
              some subtype
        | none => some subtype
    else if isPositiveTest && (isIsOperator || subtype.isNoneInstance) then
      none
    else
      some subtype

/-- Key string read from the index literal (the source casts the literal
value of the `str`-literal index type to a string; a non-string literal is
mapped to the empty key, and the callback is only constructed for a `str`
literal index). -/
def tdKeyOf (indexLiteralType : Ty) : String :=
  match indexLiteralType.literalValue with
  | some (.strV s) => s
  | _ => ""

/-- Classification step of the TypedDict entry discriminator, translated
from the subtype callback of `narrowTypeForDiscriminatedDictEntryComparison`
(typeGuards.ts lines 1589-1604). The outer `some` means the subtype has the
discriminable shape (a TypedDict instance whose declared entry for the key
has a literal or literal-union value type); its payload is the kept subtype,
when any. `none` means the shape test failed, which the source records by
clearing its `canNarrow` flag. The source reads the index literal with an
unchecked string cast; the narrowing callback is only constructed for a
`str` literal index. -/
def discrDictEntryStep (ev : Evaluator) (indexLiteralType literalType : Ty)
    (isPositiveTest : Bool) (subtype : Ty) : Option (Option Ty) :=
  if subtype.isClassInstance && isTypedDictClass subtype then
    match (ev.getTypedDictMembers subtype).find? fun e =>
        e.1 == tdKeyOf indexLiteralType with
    | some entry =>
        if isLiteralTypeOrUnion entry.2.valueType then
          if isPositiveTest then
            some (if ev.assignType entry.2.valueType literalType .default 0 then
              some subtype else none)
          else
            some (if ev.assignType literalType entry.2.valueType .default 0 then
              none else some subtype)
        else
          none
    | none => none
  else
    none

/-- Narrowing for a `x[k] == L` TypedDict entry discriminator, translated
from `narrowTypeForDiscriminatedDictEntryComparison` (typeGuards.ts lines
1580-1608): subtypes of discriminable shape are filtered through the
assignability judgment, and if any subtype is not discriminable the whole
input is returned unchanged. -/
def narrowTypeForDiscriminatedDictEntryComparison (ev : Evaluator)
    (referenceType indexLiteralType literalType : Ty) (isPositiveTest : Bool) : Ty :=
  let canNarrow := (referenceType.subtypesOf).all fun s =>
    (discrDictEntryStep ev indexLiteralType literalType isPositiveTest s).isSome
  let narrowedType := mapSubtypes referenceType fun s =>
    match discrDictEntryStep ev indexLiteralType literalType isPositiveTest s with
    | some kept => kept
    | none => some s
  if canNarrow then narrowedType else referenceType

/-- Classification step of the tuple discriminator, translated from the
subtype callback of `narrowTypeForDiscriminatedTupleComparison`
(typeGuards.ts lines 1619-1637); `none` again means the source clears its
`canNarrow` flag for this subtype. -/
def discrTupleStep (ev : Evaluator) (indexLiteralType literalType : Ty)
    (isPositiveTest : Bool) (subtype : Ty) : Option (Option Ty) :=
  if subtype.isClassInstance && isTupleClass subtype &&
      !isUnboundedTupleClass subtype then
    match indexLiteralType.literalValue with
    | some (.intV indexValue) =>
        (match tupleTypeArguments subtype with
         | some tupleArgs =>
             if 0 ≤ indexValue ∧ indexValue < tupleArgs.length then
               match tupleArgs.get? indexValue.toNat with
               | some tupleEntry =>
                   if isLiteralTypeOrUnion tupleEntry.1 then
                     if isPositiveTest then
                       some (if ev.assignType tupleEntry.1 literalType .default 0 then
                         some subtype else none)
                     else
                       some (if ev.assignType literalType tupleEntry.1 .default 0 then
                         none else some subtype)
                   else
                     none
               | none => none
             else
               none
         | none => none)
    | _ => none
  else
    none

/-- Narrowing for a `x[i] == L` tuple discriminator, translated from
`narrowTypeForDiscriminatedTupleComparison` (typeGuards.ts lines
1610-1644): fixed-length tuple subtypes with a literal-typed element at the
index are filtered; if any subtype is not of that shape the whole input is
returned unchanged. -/
def narrowTypeForDiscriminatedTupleComparison (ev : Evaluator)
    (referenceType indexLiteralType literalType : Ty) (isPositiveTest : Bool) : Ty :=
  let canNarrow := (referenceType.subtypesOf).all fun s =>
    (discrTupleStep ev indexLiteralType literalType isPositiveTest s).isSome
  let narrowedType := mapSubtypes referenceType fun s =>
    match discrTupleStep ev indexLiteralType literalType isPositiveTest s with
    | some kept => kept
    | none => some s
  if canNarrow then narrowedType else referenceType

/-- Narrowing-callback construction, translated from
`getTypeNarrowingCallback` (typeGuards.ts lines 93 onward). The recursion
guard and the dispatch order are those of the source; the embedded fragment
covers the assignment-expression delegation (lines 741-757), the
`x is None` family, `x is L` for enum or bool literals, `x == L` and
`L == x` for literals, and the `x[k] == L` and `x[i] == L` discriminators.
The remaining syntactic patterns (type(x), tuple-index None tests, len,
member discriminators, containment, calls, truthiness, aliased conditions)
lie outside the embedded fragment and yield no callback here. Recursion is
threaded through the caller-supplied counter exactly as in the source; the
structural fuel mirrors the remaining budget and is never exhausted before
the source's own guard fires. -/
def getTypeNarrowingCallbackFuel (ev : Evaluator) :
    Nat → Expr → Expr → Bool → Nat → Option (Ty → Ty)
  | 0, _, _, _, _ => none
  | fuel + 1, reference, testExpression, isPositiveTest, recursionCount =>
    if recursionCount > maxTypeRecursionCount then
      none
    else
      let recursionCount := recursionCount + 1
      match testExpression with
      | .assignmentExpr targetName rightExpression =>
          (getTypeNarrowingCallbackFuel ev fuel reference rightExpression
            isPositiveTest recursionCount).orElse fun _ =>
            getTypeNarrowingCallbackFuel ev fuel reference (.name targetName)
              isPositiveTest recursionCount
      | .binaryOp operator leftExpr rightExpr =>
          let isOrIsNotOperator := operator == .isOp || operator == .isNot
          let equalsOrNotEqualsOperator := operator == .equals || operator == .notEquals
          if isOrIsNotOperator || equalsOrNotEqualsOperator then
            let adjIsPositiveTest :=
              if operator == .isOp || operator == .equals then isPositiveTest
              else !isPositiveTest
            let leftExpression :=
              match leftExpr with
              | .assignmentExpr targetName _ => Expr.name targetName
              | other => other
            if rightExpr.isConstantNone &&
                isMatchingExpression reference leftExpression then
              some fun type => narrowTypeForIsNone ev type adjIsPositiveTest
            else if isOrIsNotOperator &&
                isMatchingExpression reference leftExpr &&
                (let rightType := ev.getTypeOfExpression rightExpr
                 rightType.isClassInstance &&
                   (isEnumClass rightType || rightType.isBuiltInClass "bool") &&
                   (rightType.literalValue).isSome) then
              let rightType := ev.getTypeOfExpression rightExpr
              some fun type =>
                narrowTypeForLiteralComparison ev type rightType adjIsPositiveTest true
            else if equalsOrNotEqualsOperator then
              let adjIsPositiveTest₂ :=
                if operator == .equals then isPositiveTest else !isPositiveTest
              if isMatchingExpression reference leftExpr &&
                  (let rightType := ev.getTypeOfExpression rightExpr
                   rightType.isClassInstance && (rightType.literalValue).isSome) then
                let rightType := ev.getTypeOfExpression rightExpr
                some fun type =>
                  narrowTypeForLiteralComparison ev type rightType adjIsPositiveTest₂ false
              else if isMatchingExpression reference rightExpr &&
                  (let leftType := ev.getTypeOfExpression leftExpr
                   leftType.isClassInstance && (leftType.literalValue).isSome) then
                let leftType := ev.getTypeOfExpression leftExpr
                some fun type =>
                  narrowTypeForLiteralComparison ev type leftType adjIsPositiveTest₂ false
              else
                match leftExpr with
                | .indexExpr baseExpression [(ArgCategory.simple, _, indexExpression)]
                    false =>
                  if isMatchingExpression reference baseExpression then
                    let indexType := ev.getTypeOfExpression indexExpression
                    if indexType.isClassInstance && isLiteralType indexType then
                      if indexType.isBuiltInClass "str" then
                        let rightType := ev.getTypeOfExpression rightExpr
                        if rightType.isClassInstance &&
                            (rightType.literalValue).isSome then
                          some fun type =>
                            narrowTypeForDiscriminatedDictEntryComparison ev type
                              indexType rightType adjIsPositiveTest₂
                        else
                          none
                      else if indexType.isBuiltInClass "int" then
                        let rightType := ev.getTypeOfExpression rightExpr
                        if rightType.isClassInstance &&
                            (rightType.literalValue).isSome then
                          some fun type =>
                            narrowTypeForDiscriminatedTupleComparison ev type
                              indexType rightType adjIsPositiveTest₂
                        else
                          none
                      else
                        none
                    else
                      none
                  else
                    none
                | _ => none
            else
              none
          else
            none
      | _ => none

/-- Narrowing-callback construction at the source signature: the fuel is
the remaining recursion budget implied by the counter. -/
def getTypeNarrowingCallback (ev : Evaluator) (reference testExpression : Expr)
    (isPositiveTest : Bool) (recursionCount : Nat) : Option (Ty → Ty) :=
  getTypeNarrowingCallbackFuel ev (maxTypeRecursionCount + 2 - recursionCount)
    reference testExpression isPositiveTest recursionCount

/-- Modelled from the spec: how the checker consumes a narrowing callback —
an absent callback leaves the incoming type unchanged. -/
def applyNarrowingCallback (callback : Option (Ty → Ty)) (t : Ty) : Ty :=
  match callback with
  | none => t
  | some f => f t

/-- Assignment of a source type to a parameter-specification destination,
translated from `assignTypeToParamSpec` (typeGuards.ts lines 2621-2725).
Accepted sources: another param-spec TypeVar (re-binding must match the
existing binding structurally; the source compares by object identity,
modelled here by structural equality), a function type (whose parameter
list is extracted; its declared parameter types stand for the effective
parameter types, and the recorded docstring is not modelled), or
Any/Unknown. Writes are guarded by the locked flag and the solve-for
scope. -/
def assignTypeToParamSpec (ev : Evaluator) (destType : TypeVarType) (srcType : Ty)
    (typeVarContext : TypeVarContext) (recursionCount : Nat) : Bool × TypeVarContext :=
  let scopeOk := match destType.scopeId with
    | some s => typeVarContext.hasSolveForScope s
    | none => false
  match srcType with
  | .typeVarTy _ _ _ _ _ true _ _ _ _ _ _ _ =>
    (match typeVarContext.getParamSpec destType with
     | some existingEntry =>
       if existingEntry.parameters.isEmpty then
         match existingEntry.paramSpec with
         | some existingPs =>
             if isTypeSame existingPs srcType then (true, typeVarContext)
             else (false, typeVarContext)
         | none => (false, typeVarContext)
       else (false, typeVarContext)
     | none =>
       if !typeVarContext.isLocked && scopeOk then
         (true, typeVarContext.setParamSpec destType
           { parameters := [], flags := 0, typeVarScopeId := none,
             docString := none, paramSpec := some srcType })
       else (true, typeVarContext))
  | .funcTy srcParams srcFlags srcScopeId srcParamSpec =>
    let parameters := srcParams
    (match typeVarContext.getParamSpec destType with
     | some existingEntry =>
       let sameResidual := match existingEntry.paramSpec, srcParamSpec with
         | none, none => true
         | some a, some b => isTypeSame a b
         | _, _ => false
       if sameResidual then
         let existingFunction := ev.convertParamSpecValueToType
           { existingEntry with paramSpec := none }
         let assignedFunction := ev.convertParamSpecValueToType
           { parameters := parameters, flags := srcFlags, typeVarScopeId := srcScopeId,
             docString := none, paramSpec := none }
         if ev.assignType existingFunction assignedFunction
             { skipFunctionReturnTypeCheck := true } recursionCount then
           (true, typeVarContext)
         else (false, typeVarContext)
       else (false, typeVarContext)
     | none =>
       if !typeVarContext.isLocked && scopeOk then
         (true, typeVarContext.setParamSpec destType
           { parameters := parameters, typeVarScopeId := srcScopeId,
             flags := srcFlags, docString := none, paramSpec := srcParamSpec })
       else (true, typeVarContext))
  | .anyTy => (true, typeVarContext)
  | .unknownTy => (true, typeVarContext)
  | _ => (false, typeVarContext)

/-- Search for the narrowest constraint accepting a source subtype,
translated from the `forEach` loop over the destination's constraints in
the constrained branch of `assignTypeToTypeVar` (typeGuards.ts lines
2165-2198): among the accepting constraints, a later constraint replaces
the candidate when the candidate accepts it; the chosen constraint is
tagged with the subtype's condition and its index is reported. -/
def narrowestConstraintFor (ev : Evaluator) (destType : TypeVarType)
    (srcSubtype : Ty) (recursionCount : Nat) : Option Ty × Option Nat :=
  destType.constraints.enum.foldl
    (fun acc ci =>
      let constraint := ci.2
      let i := ci.1
      let adjustedConstraint :=
        if !destType.isInstance then convertToInstantiable constraint else constraint
      if ev.assignType adjustedConstraint srcSubtype .default recursionCount then
        match acc.1 with
        | none =>
            (some (addConditionToType constraint srcSubtype.getTypeCondition), some i)
        | some constrainedSubtype =>
            if ev.assignType
                (if !destType.isInstance then convertToInstantiable constrainedSubtype
                 else constrainedSubtype)
                adjustedConstraint .default recursionCount then
              (some (addConditionToType constraint srcSubtype.getTypeCondition), some i)
            else acc
      else acc)
    (none, none)

/-- State of the per-subtype mapping in the constrained branch of
`assignTypeToTypeVar`: the mapped subtypes collected so far, the
compatibility flag, and the constraint index of the last unconditional
subtype; the source keeps the latter two in closure variables mutated by
the `mapSubtypes` callback (typeGuards.ts lines 2149-2223). -/
structure ConstrainedFoldState where
  mapped : List Ty := []
  isCompatible : Bool := true
  unconditionalConstraintIndex : Option Nat := none

/-- One step of the constrained-branch mapping, translated from the
`mapSubtypes` callback (typeGuards.ts lines 2157-2223): Any/Unknown
subtypes pass through; otherwise the narrowest accepting constraint is
recorded, a missing constraint clears compatibility outside contravariant
mode, and an unconditional subtype whose constraint index differs from a
previous unconditional subtype's index clears compatibility. The closure
variables of the source are split into the two named updates below. This
first update clears compatibility when no constraint accepted the subtype
outside contravariant mode (typeGuards.ts lines 2200-2207). -/
def stepCompatUpdate (isContravariant : Bool) (found : Option Ty)
    (st : ConstrainedFoldState) : ConstrainedFoldState :=
  if found.isNone && !isContravariant then { st with isCompatible := false }
  else st

/-- Index bookkeeping of the constrained-branch mapping: an unconditional
subtype records its constraint index and clears compatibility when it
differs from the previously recorded one (typeGuards.ts lines
2209-2220). -/
def stepUncondUpdate (constraintIndexUsed? : Option Nat) (srcSubtype : Ty)
    (st : ConstrainedFoldState) : ConstrainedFoldState :=
  match constraintIndexUsed? with
  | some constraintIndexUsed =>
    if srcSubtype.getTypeCondition.isEmpty then
      let clash := match st.unconditionalConstraintIndex with
        | some j => j != constraintIndexUsed
        | none => false
      { st with
        isCompatible := st.isCompatible && !clash,
        unconditionalConstraintIndex := some constraintIndexUsed }
    else st
  | none => st

def constrainedFoldStep (ev : Evaluator) (destType : TypeVarType)
    (isContravariant : Bool) (recursionCount : Nat)
    (st : ConstrainedFoldState) (srcSubtype : Ty) : ConstrainedFoldState :=
  if srcSubtype.isAnyOrUnknown then
    { st with mapped := st.mapped ++ [srcSubtype] }
  else
    let found := narrowestConstraintFor ev destType srcSubtype recursionCount
    let st₂ := stepUncondUpdate found.2 srcSubtype
      (stepCompatUpdate isContravariant found.1 st)
    { st₂ with mapped := st₂.mapped ++ found.1.toList }

/-- Assignment to a constrained TypeVar, translated from the constrained
branch of `assignTypeToTypeVar` (typeGuards.ts lines 2117-2310): a TypeVar
source assignable to the destination binds as itself; otherwise each source
subtype maps to its narrowest constraint, unconditional subtypes must agree
on one constraint, a failed mapping falls back to a constraint accepting
the whole union, and the result is checked against the current narrow
bound (widening to the new constraint when the current bound is narrower).
Calls into the assignability judgment that the source supplies with a fresh
scoped context are modelled through the pure capability. -/
def assignConstrainedTypeVar (ev : Evaluator) (destType : TypeVarType) (srcType : Ty)
    (typeVarContext : TypeVarContext) (flags : AssignFlags) (recursionCount : Nat)
    (isTypeVarInScope : Bool) : Bool × TypeVarContext :=
  let isContravariant := flags.reverseTypeVarMatching
  let curEntry := typeVarContext.getTypeVar destType
  let curNarrowTypeBound := curEntry.bind (·.narrowBound)
  let concreteSrcType := ev.makeTopLevelTypeVarsConcrete srcType
  let constrainedType? : Option Ty :=
    if srcType.isTypeVar then
      if ev.assignType destType.toTy concreteSrcType .default recursionCount then
        some (if srcType.isInstantiable then convertToInstance srcType else srcType)
      else none
    else
      let st := (concreteSrcType.subtypesOf).foldl
        (constrainedFoldStep ev destType isContravariant recursionCount) {}
      let constrainedType₀ :=
        if concreteSrcType.isUnion then combineTypes st.mapped
        else (st.mapped.head?).getD Ty.neverTy
      let afterMap :=
        if constrainedType₀.isNever || !st.isCompatible then none
        else some constrainedType₀
      match afterMap with
      | some c => some c
      | none =>
          if concreteSrcType.isUnion then
            destType.constraints.find? fun constraint =>
              let adjustedConstraint :=
                if !destType.isInstance then convertToInstantiable constraint
                else constraint
              ev.assignType adjustedConstraint concreteSrcType .default recursionCount
          else none
  match constrainedType? with
  | none => (false, typeVarContext)
  | some constrainedType =>
    match curNarrowTypeBound with
    | some curNarrow =>
      if !curNarrow.isAnyOrUnknown then
        if ev.assignType curNarrow constrainedType .default recursionCount then
          (true, typeVarContext)
        else if ev.assignType constrainedType curNarrow .default recursionCount then
          (true,
            if !typeVarContext.isLocked && isTypeVarInScope then
              typeVarContext.setTypeVarType destType (some constrainedType) none false
            else typeVarContext)
        else
          (false, typeVarContext)
      else
        (true,
          if !typeVarContext.isLocked && isTypeVarInScope then
            typeVarContext.setTypeVarType destType (some constrainedType) none false
          else typeVarContext)
    | none =>
      (true,
        if !typeVarContext.isLocked && isTypeVarInScope then
          typeVarContext.setTypeVarType destType (some constrainedType) none false
        else typeVarContext)

/-- Assignment to an unconstrained (possibly bound) TypeVar, translated
from the unconstrained branch of `assignTypeToTypeVar` (typeGuards.ts lines
2313-2619): literal stripping, instantiable conversion, the wide-bound
update in contravariant or narrowing mode, the narrow-bound update with the
pathological-union guard in covariant mode, the wide-bound violation check,
the declared-bound check, and the final guarded write. The source passes
fresh scoped contexts (and, for a synthesized Self destination, the ambient
context) to the assignability judgment; the judgment is modelled as a pure
capability. -/
def assignUnconstrainedTypeVar (ev : Evaluator) (destType : TypeVarType) (srcType : Ty)
    (typeVarContext : TypeVarContext) (flags : AssignFlags) (recursionCount : Nat)
    (isTypeVarInScope : Bool) : Bool × TypeVarContext :=
  let isContravariant := flags.reverseTypeVarMatching
  let curEntry := typeVarContext.getTypeVar destType
  let curNarrowTypeBound := curEntry.bind (·.narrowBound)
  let curWideTypeBound := match curEntry.bind (·.wideBound) with
    | some w => some w
    | none => destType.bound
  let retainLiterals :=
    flags.retainLiteralsForTypeVar ||
    typeVarContext.getRetainLiterals destType ||
    (match destType.bound with
     | some b => containsLiteralType b
     | none => false) ||
    destType.constraints.any containsLiteralType
  let adjSrcType₀ := if retainLiterals then srcType else stripLiteralValue srcType
  let adjSrcType? :=
    if !destType.isInstance then
      if isEffectivelyInstantiable adjSrcType₀ then some (convertToInstance adjSrcType₀)
      else none
    else some adjSrcType₀
  match adjSrcType? with
  | none => (false, typeVarContext)
  | some adjSrcType =>
    let updateResult : Option (Option Ty × Option Ty) :=
      if isContravariant || flags.allowTypeVarNarrowing then
        let newWide? : Option (Option Ty) :=
          match curWideTypeBound with
          | none => some (some adjSrcType)
          | some curWide =>
            if isTypeSame curWide adjSrcType then some (some curWide)
            else if ev.assignType curWide (ev.makeTopLevelTypeVarsConcrete adjSrcType)
                flags.ignoreScopeOnly recursionCount then
              some (some adjSrcType)
            else if ev.assignType adjSrcType curWide flags.ignoreScopeOnly
                recursionCount then
              some (some curWide)
            else none
        match newWide? with
        | none => none
        | some newWide =>
          match curNarrowTypeBound with
          | some curNarrow =>
            if ev.assignType ((newWide).getD Ty.unknownTy) curNarrow
                flags.ignoreScopeOnly recursionCount then
              some (curNarrowTypeBound, newWide)
            else none
          | none => some (curNarrowTypeBound, newWide)
      else
        let newNarrow? : Option (Option Ty) :=
          match curNarrowTypeBound with
          | none => some (some adjSrcType)
          | some curNarrow =>
            if isTypeSame curNarrow adjSrcType then some (some curNarrow)
            else if ev.assignType curNarrow adjSrcType flags recursionCount then
              if isPartlyUnknown curNarrow && !adjSrcType.isUnknown &&
                  ev.assignType adjSrcType curNarrow flags.ignoreScopeOnly
                    recursionCount then
                some (some adjSrcType)
              else
                some (some curNarrow)
            else if typeVarContext.isLocked then none
            else if destType.isVariadic then none
            else if ev.assignType adjSrcType curNarrow flags.ignoreScopeOnly
                recursionCount then
              some (some adjSrcType)
            else
              match ev.objectType with
              | some objectType =>
                if curNarrow.isUnion &&
                    (curNarrow.subtypesOf).length > maxSubtypesForInferredType &&
                    destType.bound.isSome && objectType.isClassInstance then
                  some (some (combineTypes [curNarrow, objectType]))
                else
                  some (some (combineTypes [curNarrow, adjSrcType]))
              | none => some (some (combineTypes [curNarrow, adjSrcType]))
        match newNarrow? with
        | none => none
        | some newNarrow =>
          match curWideTypeBound, newNarrow with
          | some curWide, some narrowed =>
            if !isTypeSame curWide narrowed then
              let makeConcrete :=
                if curWide.isTypeVar then
                  if isTypeSame narrowed curWide then false
                  else if narrowed.isUnion &&
                      (narrowed.subtypesOf).any (fun s => isTypeSame s curWide) then
                    false
                  else true
                else true
              if ev.assignType
                  (if makeConcrete then ev.makeTopLevelTypeVarsConcrete curWide
                   else curWide)
                  narrowed flags.ignoreScopeOnly recursionCount then
                some (newNarrow, curWideTypeBound)
              else none
            else some (newNarrow, curWideTypeBound)
          | _, _ => some (newNarrow, curWideTypeBound)
    match updateResult with
    | none => (false, typeVarContext)
    | some bounds =>
      let newNarrowTypeBound := bounds.1
      let newWideTypeBound := bounds.2
      let boundOk :=
        match destType.bound with
        | some boundType =>
          if !destType.isInstance && !srcType.isInstantiable then false
          else
            let updatedType :=
              ((newNarrowTypeBound).orElse fun _ => newWideTypeBound).getD Ty.unknownTy
            ev.assignType boundType (ev.makeTopLevelTypeVarsConcrete updatedType)
              flags.ignoreScopeOnly recursionCount
        | none => true
      if !boundOk then (false, typeVarContext)
      else
        (true,
          if !typeVarContext.isLocked && isTypeVarInScope then
            typeVarContext.setTypeVarType destType newNarrowTypeBound newWideTypeBound
              retainLiterals
          else typeVarContext)

/-- Main body of `assignTypeToTypeVar` once the scope check has resolved,
translated from typeGuards.ts lines 2072-2619: skip-solve mode delegates to
the concretised assignability check, a param-spec destination delegates to
`assignTypeToParamSpec`, a variadic destination packages a non-unpacked
source into a synthetic unpacked tuple, a bare `type` instance assigned to
an instantiable destination becomes Any, and the constrained or
unconstrained branch finishes the assignment. -/
def assignTypeToTypeVarMain (ev : Evaluator) (destType : TypeVarType) (srcType : Ty)
    (typeVarContext : TypeVarContext) (flags : AssignFlags) (recursionCount : Nat)
    (isTypeVarInScope : Bool) : Bool × TypeVarContext :=
  if flags.skipSolveTypeVars then
    (ev.assignType (ev.makeTopLevelTypeVarsConcrete destType.toTy)
      (ev.makeTopLevelTypeVarsConcrete srcType) flags recursionCount, typeVarContext)
  else if destType.isParamSpec then
    assignTypeToParamSpec ev destType srcType typeVarContext recursionCount
  else
    let srcType :=
      if destType.isVariadic && !srcType.isUnpacked then
        match ev.tupleClassType with
        | some tupleClassType =>
          if tupleClassType.isInstantiableClass then
            convertToInstance (specializeTupleClass tupleClassType [(srcType, false)] true)
          else Ty.unknownTy
        | none => Ty.unknownTy
      else srcType
    let srcType :=
      if !destType.isInstance && srcType.isClassInstance &&
          srcType.isBuiltInClass "type" && (typeArguments srcType).isNone then
        Ty.anyTy
      else srcType
    if !destType.constraints.isEmpty then
      assignConstrainedTypeVar ev destType srcType typeVarContext flags recursionCount
        isTypeVarInScope
    else
      assignUnconstrainedTypeVar ev destType srcType typeVarContext flags recursionCount
        isTypeVarInScope

/-- Assignment of a source type to a TypeVar destination, translated from
`assignTypeToTypeVar` (typeGuards.ts lines 2010-2619). A destination with
no scope id is accepted without binding; a destination whose scope is not
in the context's solve-for set accepts Any/Unknown sources (and classes
deriving from them), accepts anything in ignore-scope mode, falls back to a
concretised assignability check in contravariant mode, fails for
non-synthesized destinations, and otherwise continues out of scope (no
write will be performed). -/
def assignTypeToTypeVar (ev : Evaluator) (destType : TypeVarType) (srcType : Ty)
    (typeVarContext : TypeVarContext) (flags : AssignFlags) (recursionCount : Nat) :
    Bool × TypeVarContext :=
  match destType.scopeId with
  | none => (true, typeVarContext)
  | some scopeId =>
    if typeVarContext.hasSolveForScope scopeId then
      assignTypeToTypeVarMain ev destType srcType typeVarContext flags recursionCount true
    else if srcType.isAnyOrUnknown || classDerivesFromAnyOrUnknown srcType then
      (true, typeVarContext)
    else if flags.ignoreTypeVarScope then
      (true, typeVarContext)
    else if flags.reverseTypeVarMatching &&
        ev.assignType (ev.makeTopLevelTypeVarsConcrete destType.toTy)
          (ev.makeTopLevelTypeVarsConcrete srcType) flags recursionCount then
      (true, typeVarContext)
    else if !destType.isSynthesized then
      (false, typeVarContext)
    else
      assignTypeToTypeVarMain ev destType srcType typeVarContext flags recursionCount false

/-- Modelled from the spec: the detail record of a class type as the
expected-type population routine receives it (the target of
`populateTypeVarContextBasedOnExpectedType` is typed as a class in the
source). -/
structure ClassType where
  name : String
  flags : ClassFlags := {}
  isInstance : Bool := true
  typeParams : List TParam := []
  typeVarScopeId : Option String := none
  typeArgs : Option (List Ty) := none
  tupleArgs : Option (List (Ty × Bool)) := none
  literal : Option LitVal := none
  fields : List (String × Bool × Ty) := []
  isUnpackedCls : Bool := false
  condition : List Nat := []

/-- View of a class record as a type. -/
def ClassType.toTy (c : ClassType) : Ty :=
  .classTy c.name c.flags c.isInstance c.typeParams c.typeVarScopeId c.typeArgs
    c.tupleArgs c.literal c.fields c.isUnpackedCls c.condition

/-- View of a class type as a class record. -/
def Ty.asClass : Ty → Option ClassType
  | .classTy n f i tp sc ta tu l fl u c => some ⟨n, f, i, tp, sc, ta, tu, l, fl, u, c⟩
  | _ => none

/-- Clone of a class record specialised with explicit type arguments (the
`ClassType.cloneForSpecialization` helper of the type model). -/
def cloneForSpecialization (c : ClassType) (args : List Ty) : ClassType :=
  { c with typeArgs := some args }

/-- TypeVar record corresponding to a declared type parameter. -/
def tparamToTypeVar (p : TParam) : TypeVarType :=
  { name := p.name, scopeId := p.scopeId, variance := p.variance }

/-- Modelled from the spec: the per-parameter specialisation pairs of a
specialized class, as produced by `buildTypeVarContextFromSpecializedClass`
followed by `getTypeVars`/`getTypeVarType`: each declared type parameter
paired with its recorded type argument (Unknown when the class carries no
explicit arguments; the population routine only reaches this with explicit
arguments present). -/
def specializedClassPairs (c : ClassType) : List (TParam × Ty) :=
  match c.typeArgs with
  | some args => c.typeParams.zip args
  | none => c.typeParams.map fun p => (p, Ty.unknownTy)

/-- Population of a type-variable context from an expected specialised
type, translated from `populateTypeVarContextBasedOnExpectedType`
(typeGuards.ts lines 2733-2872). An Any expected type binds every type
parameter to Any; a non-class expected type fails; an unspecialised
expected type delegates to the assignability judgment with the ambient
context; an expected type of the same generic class copies each recorded
type argument into the context directly, setting only the wide bound for a
covariant parameter, only the narrow bound for a contravariant parameter,
and both bounds for an invariant parameter, skipping arguments that are
TypeVars scoped to the target class; otherwise synthetic type variables are
substituted into both sides, the assignability judgment binds them in a
synthetic context, and each binding that resolved to a source placeholder
projects the corresponding expected argument (transformed for live outer
scopes when requested) onto the matching target parameter. Variance
inference for Auto-variance parameters is performed by the evaluator in the
source and has no effect in this model, where every parameter carries a
declared variance. -/
def populateTypeVarContextBasedOnExpectedType (ev : Evaluator) (type : ClassType)
    (expectedType : Ty) (typeVarContext : TypeVarContext)
    (liveTypeVarScopes : Option (List String)) : Bool × TypeVarContext :=
  if expectedType.isAnyExactly then
    (true, type.typeParams.foldl
      (fun ctx typeParam =>
        ctx.setTypeVarType (tparamToTypeVar typeParam) (some expectedType) none false)
      typeVarContext)
  else
    match expectedType.asClass with
    | none => (false, typeVarContext)
    | some expectedClass =>
      match expectedClass.typeArgs with
      | none =>
          ev.assignTypeCtx type.toTy expectedType typeVarContext
            { populatingExpectedType := true }
      | some expectedTypeArgs =>
        if isSameGenericClass expectedType type.toTy then
          (true, (specializedClassPairs expectedClass).foldl
            (fun ctx pair =>
              let typeVarType := pair.2
              let skip := match typeVarType.asTypeVar with
                | some tv => tv.scopeId == type.typeVarScopeId
                | none => false
              if skip then ctx
              else
                ctx.setTypeVarType (tparamToTypeVar pair.1)
                  (if pair.1.variance == Variance.covariant then none else some typeVarType)
                  (if pair.1.variance == Variance.contravariant then none
                   else some typeVarType)
                  false)
            typeVarContext)
        else
          let expectedTypeScopeId := expectedClass.typeVarScopeId
          let synthExpectedTypeArgs : List TypeVarType :=
            expectedClass.typeParams.enum.map fun p =>
              { name := "__dest" ++ toString p.1, isSynthesized := true,
                variance := Variance.invariant, scopeId := expectedTypeScopeId }
          let genericExpectedType := cloneForSpecialization expectedClass
            (synthExpectedTypeArgs.map TypeVarType.toTy)
          let typeArgs : List TypeVarType :=
            type.typeParams.enum.map fun p =>
              { name := "__source" ++ toString p.1, isSynthesized := true,
                synthesizedIndex := some p.1 }
          let specializedType := cloneForSpecialization type
            (typeArgs.map TypeVarType.toTy)
          let syntheticTypeVarContext := TypeVarContext.create expectedTypeScopeId
          let assigned := ev.assignTypeCtx genericExpectedType.toTy specializedType.toTy
            syntheticTypeVarContext { populatingExpectedType := true }
          if assigned.1 then
            let final := synthExpectedTypeArgs.enum.foldl
              (fun (acc : Bool × TypeVarContext) p =>
                let index := p.1
                let typeVar := p.2
                match (assigned.2.getTypeVarType typeVar).bind Ty.asTypeVar with
                | some synthTypeVar =>
                  if synthTypeVar.isSynthesized then
                    match synthTypeVar.synthesizedIndex with
                    | some synthesizedIndex =>
                      (match type.typeParams.get? synthesizedIndex with
                       | some targetParam =>
                         if index < expectedTypeArgs.length then
                           let expectedTypeArgValue? :=
                             match expectedTypeArgs.get? index with
                             | some argValue =>
                               (match liveTypeVarScopes with
                                | some scopes =>
                                    ev.transformExpectedTypeForConstructor argValue
                                      acc.2 scopes
                                | none => some argValue)
                             | none => none
                           match expectedTypeArgValue? with
                           | some expectedTypeArgValue =>
                             (acc.1,
                               acc.2.setTypeVarType (tparamToTypeVar targetParam)
                                 (if typeVar.variance == Variance.covariant then none
                                  else some expectedTypeArgValue)
                                 (if typeVar.variance == Variance.contravariant then none
                                  else some expectedTypeArgValue)
                                 false)
                           | none => (false, acc.2)
                         else acc
                       | none => acc)
                    | none => acc
                  else acc
                | none => acc)
              (true, typeVarContext)
            final
          else (false, typeVarContext)

/-! Concrete material: a small nominal instantiation of the external
capabilities, used to evaluate the embedded routines on closed inputs. -/

/-- Built-in class instance with the given name and no other structure. -/
def mkBuiltInInstance (n : String) : Ty :=
  .classTy n { builtIn := true } true [] none none none none [] false []

/-- The `int` instance. -/
def intInst : Ty := mkBuiltInInstance "int"

/-- The `str` instance. -/
def strInst : Ty := mkBuiltInInstance "str"

/-- The `bytes` instance. -/
def bytesInst : Ty := mkBuiltInInstance "bytes"

/-- The `object` instance. -/
def objectInst : Ty := mkBuiltInInstance "object"

/-- The `None` instance. -/
def noneInst : Ty := .noneTy true []

/-- A family of unrelated plain class instances. -/
def demoClass (i : Nat) : Ty :=
  .classTy ("C" ++ toString i) {} true [] none none none none [] false []

/-- Nominal assignability between flat types: Never and Any/Unknown are
universal, `object` accepts every class instance, classes match by name and
instance bit with literal subsumption, None matches None, and a union
source requires every subtype accepted by some destination subtype. This is
a concrete instantiation of the external assignability capability for
closed evaluation. -/
def simpleAssignAtom (dest src : Ty) : Bool :=
  if src.isNever then true
  else if src.isAnyOrUnknown || dest.isAnyOrUnknown then true
  else
    match dest, src with
    | .noneTy di _, .noneTy si _ => di == si
    | .classTy dn _ dInst _ _ _ _ dLit _ _ _, .classTy sn _ sInst _ _ _ _ sLit _ _ _ =>
        if dInst && sInst && dn == "object" then true
        else
          dn == sn && dInst == sInst &&
          (match dLit, sLit with
           | none, _ => true
           | some a, some b => a == b
           | some _, none => false)
    | _, _ => false

/-- Nominal assignability lifted to unions. -/
def simpleAssign (dest src : Ty) : Bool :=
  (src.subtypesOf).all fun s => (dest.subtypesOf).any fun d => simpleAssignAtom d s

/-- Concrete instantiation of the capability record for closed
evaluation: nominal assignability, identity concretisation, the `object`
lookup, TypedDict members read from class fields, and trivial remaining
capabilities. -/
def demoEvaluator : Evaluator where
  assignType := fun dest src _ _ => simpleAssign dest src
  assignTypeCtx := fun dest src ctx _ => (simpleAssign dest src, ctx)
  makeTopLevelTypeVarsConcrete := fun t => t
  objectType := some objectInst
  tupleClassType := none
  getTypedDictMembers := fun t => (fieldsOf t).map fun f => (f.1, ⟨f.2.2, true, false⟩)
  getTypeOfExpression := fun _ => Ty.unknownTy
  transformExpectedTypeForConstructor := fun t _ _ => some t
  convertParamSpecValueToType := fun _ => Ty.funcTy [] 0 none none

/-! Theorems. -/

/-- Helper: the narrowing-callback construction yields no callback once the
recursion counter exceeds the budget, at any structural fuel. -/
theorem narrowingFuel_none_of_guard (ev : Evaluator) (fuel : Nat) (r te : Expr)
    (p : Bool) (rc : Nat) (h : rc > maxTypeRecursionCount) :
    getTypeNarrowingCallbackFuel ev fuel r te p rc = none := by
  cases fuel with
  | zero => rfl
  | succ n =>
      show (if rc > maxTypeRecursionCount then none else _) = none
      rw [if_pos h]

/-- C4: a narrowing query whose recursion counter exceeds
`maxTypeRecursionCount` produces no callback, and the narrowed type — the
reference type as the checker consumes the absent callback — is the input
unchanged, so every query terminates within the recursion budget. -/
theorem getTypeNarrowingCallback_recursion_guard
    (ev : Evaluator) (reference testExpression : Expr) (isPositiveTest : Bool)
    (recursionCount : Nat) (h : recursionCount > maxTypeRecursionCount) :
    getTypeNarrowingCallback ev reference testExpression isPositiveTest
      recursionCount = none ∧
    ∀ t : Ty, applyNarrowingCallback
      (getTypeNarrowingCallback ev reference testExpression isPositiveTest
        recursionCount) t = t := by
  have hnone := narrowingFuel_none_of_guard ev
    (maxTypeRecursionCount + 2 - recursionCount) reference testExpression
    isPositiveTest recursionCount h
  refine ⟨hnone, fun t => ?_⟩
  rw [getTypeNarrowingCallback, hnone]
  rfl

/-- C4 witness: the guard at counter 17 on a concrete query. -/
theorem getTypeNarrowingCallback_recursion_guard_witness :
    17 > maxTypeRecursionCount ∧
    getTypeNarrowingCallback demoEvaluator (.name "x") (.name "x") true 17 = none ∧
    applyNarrowingCallback
      (getTypeNarrowingCallback demoEvaluator (.name "x") (.name "x") true 17)
      Ty.anyTy = Ty.anyTy :=
  ⟨by decide,
   (getTypeNarrowingCallback_recursion_guard demoEvaluator (.name "x") (.name "x")
     true 17 (by decide)).1,
   (getTypeNarrowingCallback_recursion_guard demoEvaluator (.name "x") (.name "x")
     true 17 (by decide)).2 Ty.anyTy⟩

/-- Well-shaped index scalar as the specification words it: an integer
literal, a negated integer literal, or a single string literal. -/
inductive WfScalar : Expr → Prop where
  | int (v : Int) : WfScalar (.numberLit v true false)
  | negInt (v : Int) : WfScalar (.unaryOp .negate (.numberLit v true false))
  | str (s : String) : WfScalar (.stringListLit [(true, s)])

/-- Well-shaped reference chain as the specification words it: Name,
MemberAccess over a chain, or Index over a chain with a single simple
unnamed well-shaped scalar item and no trailing comma. -/
inductive RefChain : Expr → Prop where
  | name (v : String) : RefChain (.name v)
  | member {l : Expr} (m : String) : RefChain l → RefChain (.memberAccess l m)
  | index {b scalar : Expr} : RefChain b → WfScalar scalar →
      RefChain (.indexExpr b [(ArgCategory.simple, none, scalar)] false)

/-- Equality of two well-shaped index scalars by value. -/
def scalarValueEq : Expr → Expr → Bool
  | .numberLit v₁ _ _, .numberLit v₂ _ _ => v₁ == v₂
  | .unaryOp .negate (.numberLit v₁ _ _), .unaryOp .negate (.numberLit v₂ _ _) =>
      v₁ == v₂
  | .stringListLit [(true, s₁)], .stringListLit [(true, s₂)] => s₁ == s₂
  | _, _ => false

/-- Structural chain equality as the specification words it: equal names
along Name and MemberAccess links and equal scalar values at Index links. -/
def chainEq : Expr → Expr → Bool
  | .name a, .name b => a == b
  | .memberAccess l₁ m₁, .memberAccess l₂ m₂ => chainEq l₁ l₂ && m₁ == m₂
  | .indexExpr b₁ items₁ _, .indexExpr b₂ items₂ _ =>
      chainEq b₁ b₂ &&
      (match items₁, items₂ with
       | [(_, _, s₁)], [(_, _, s₂)] => scalarValueEq s₁ s₂
       | _, _ => false)
  | _, _ => false

/-- C9 counterexample: the reference `x[1, 2]` — an index with multiple
items, a shape the claim says returns false — matches the candidate
`x[1]`, because only the candidate's index shape is validated and the
reference's first item alone is compared. -/
theorem isMatchingExpression_multi_item_reference :
    isMatchingExpression
      (.indexExpr (.name "x")
        [(ArgCategory.simple, none, .numberLit 1 true false),
         (ArgCategory.simple, none, .numberLit 2 true false)] false)
      (.indexExpr (.name "x")
        [(ArgCategory.simple, none, .numberLit 1 true false)] false) = true := by
  decide

/-- C9 amended: restricted to pairs in which the reference and the
candidate are both well-shaped chains of Name, MemberAccess, and Index with
a single simple unnamed integer-literal, negated-integer-literal, or
single-string-literal scalar, `isMatchingExpression` coincides with
structural chain equality with equal values. -/
theorem isMatchingExpression_eq_chainEq {reference expression : Expr}
    (hr : RefChain reference) (he : RefChain expression) :
    isMatchingExpression reference expression = chainEq reference expression := by
  induction hr generalizing expression with
  | name v =>
      cases he with
      | name w => rfl
      | member m hl => rfl
      | index hb hs => rfl
  | member m hl ih =>
      cases he with
      | name w => rfl
      | member m₂ hl₂ =>
          show (isMatchingExpression _ _ && _) = (chainEq _ _ && _)
          rw [ih hl₂]
      | index hb hs => rfl
  | @index b scalar hb hs ih =>
      cases he with
      | name w => rfl
      | member m₂ hl₂ => rfl
      | @index b₂ scalar₂ hb₂ hs₂ =>
          cases hs <;> cases hs₂ <;>
            simp only [isMatchingExpression, chainEq, scalarValueEq, ih hb₂] <;>
            cases hchain : chainEq b b₂ <;> simp

/-- C9 amended witness: the equivalence applied to the concrete chains
`x.a[1]` and `x.a[1]`, whose match evaluates to true. -/
theorem isMatchingExpression_eq_chainEq_witness :
    isMatchingExpression
      (.indexExpr (.memberAccess (.name "x") "a")
        [(ArgCategory.simple, none, .numberLit 1 true false)] false)
      (.indexExpr (.memberAccess (.name "x") "a")
        [(ArgCategory.simple, none, .numberLit 1 true false)] false) =
    chainEq
      (.indexExpr (.memberAccess (.name "x") "a")
        [(ArgCategory.simple, none, .numberLit 1 true false)] false)
      (.indexExpr (.memberAccess (.name "x") "a")
        [(ArgCategory.simple, none, .numberLit 1 true false)] false) ∧
    isMatchingExpression
      (.indexExpr (.memberAccess (.name "x") "a")
        [(ArgCategory.simple, none, .numberLit 1 true false)] false)
      (.indexExpr (.memberAccess (.name "x") "a")
        [(ArgCategory.simple, none, .numberLit 1 true false)] false) = true :=
  ⟨isMatchingExpression_eq_chainEq
    (RefChain.index (RefChain.member "a" (RefChain.name "x")) (WfScalar.int 1))
    (RefChain.index (RefChain.member "a" (RefChain.name "x")) (WfScalar.int 1)),
   by decide⟩

/-- Discriminable shape for the TypedDict entry comparison, as the claim
words it: a TypedDict instance whose declared entry for the key is a
literal or literal-union type. -/
def hasDiscriminableDictShape (ev : Evaluator) (indexLiteralType : Ty)
    (subtype : Ty) : Bool :=
  if subtype.isClassInstance && isTypedDictClass subtype then
    match (ev.getTypedDictMembers subtype).find? fun e =>
        e.1 == tdKeyOf indexLiteralType with
    | some entry => isLiteralTypeOrUnion entry.2.valueType
    | none => false
  else false

/-- Discriminable shape for the tuple comparison, as the claim words it: a
fixed-length tuple instance with a literal-typed element at the integer
index. -/
def hasDiscriminableTupleShape (indexLiteralType : Ty) (subtype : Ty) : Bool :=
  if subtype.isClassInstance && isTupleClass subtype &&
      !isUnboundedTupleClass subtype then
    match indexLiteralType.literalValue with
    | some (.intV indexValue) =>
      (match tupleTypeArguments subtype with
       | some tupleArgs =>
         if 0 ≤ indexValue ∧ indexValue < tupleArgs.length then
           match tupleArgs.get? indexValue.toNat with
           | some tupleEntry => isLiteralTypeOrUnion tupleEntry.1
           | none => false
         else false
       | none => false)
    | _ => false
  else false

/-- Helper: the dict-discriminator step succeeds exactly on discriminable
shapes. -/
theorem discrDictEntryStep_isSome (ev : Evaluator) (k L : Ty) (pos : Bool)
    (s : Ty) : (discrDictEntryStep ev k L pos s).isSome =
      hasDiscriminableDictShape ev k s := by
  unfold discrDictEntryStep hasDiscriminableDictShape
  by_cases hA : (s.isClassInstance && isTypedDictClass s) = true
  · rw [if_pos hA, if_pos hA]
    split
    · split
      · cases pos <;> simp_all
      · simp_all
    · rfl
  · rw [if_neg hA, if_neg hA]
    rfl

/-- Helper: the tuple-discriminator step succeeds exactly on discriminable
shapes. -/
theorem discrTupleStep_isSome (ev : Evaluator) (k L : Ty) (pos : Bool)
    (s : Ty) : (discrTupleStep ev k L pos s).isSome =
      hasDiscriminableTupleShape k s := by
  unfold discrTupleStep hasDiscriminableTupleShape
  by_cases hA : (s.isClassInstance && isTupleClass s && !isUnboundedTupleClass s) = true
  · rw [if_pos hA, if_pos hA]
    split
    · split
      · split
        · split
          · split
            · cases pos <;> simp_all
            · simp_all
          · rfl
        · rfl
      · rfl
    · rfl
  · rw [if_neg hA, if_neg hA]
    rfl

/-- C10: the TypedDict entry discriminator and the tuple discriminator are
all-or-nothing — if any subtype of the reference lacks the discriminable
shape, the whole input type is returned unchanged. -/
theorem discriminator_all_or_nothing (ev : Evaluator) (t k L : Ty) (pos : Bool) :
    ((∃ s ∈ t.subtypesOf, hasDiscriminableDictShape ev k s = false) →
      narrowTypeForDiscriminatedDictEntryComparison ev t k L pos = t) ∧
    ((∃ s ∈ t.subtypesOf, hasDiscriminableTupleShape k s = false) →
      narrowTypeForDiscriminatedTupleComparison ev t k L pos = t) := by
  constructor
  · intro h
    obtain ⟨s, hs, hbad⟩ := h
    have hall : ((t.subtypesOf).all fun s =>
        (discrDictEntryStep ev k L pos s).isSome) = false := by
      rw [List.all_eq_false]
      exact ⟨s, hs, by rw [discrDictEntryStep_isSome, hbad]; simp⟩
    unfold narrowTypeForDiscriminatedDictEntryComparison
    simp only [hall, Bool.false_eq_true, if_neg]
    simp
  · intro h
    obtain ⟨s, hs, hbad⟩ := h
    have hall : ((t.subtypesOf).all fun s =>
        (discrTupleStep ev k L pos s).isSome) = false := by
      rw [List.all_eq_false]
      exact ⟨s, hs, by rw [discrTupleStep_isSome, hbad]; simp⟩
    unfold narrowTypeForDiscriminatedTupleComparison
    simp only [hall, Bool.false_eq_true, if_neg]
    simp

/-- A TypedDict class instance with one declared literal entry, for closed
evaluation. -/
def movieTD : Ty :=
  .classTy "Movie" { typedDictClass := true } true [] none none none none
    [("director", false, cloneWithLiteral strInst (some (.strV "X")))] false []

/-- A fixed-length tuple instance with a literal first element, for closed
evaluation. -/
def demoTuple : Ty :=
  .classTy "tuple" { builtIn := true, tupleClass := true } true [] none
    (some [cloneWithLiteral intInst (some (.intV 0))])
    (some [(cloneWithLiteral intInst (some (.intV 0)), false)]) none [] false []

/-- C10 witness: a union containing a plain `int` subtype defeats both
discriminators on concrete inputs. -/
theorem discriminator_all_or_nothing_witness :
    narrowTypeForDiscriminatedDictEntryComparison demoEvaluator
      (.unionTy [movieTD, intInst]) (cloneWithLiteral strInst (some (.strV "director")))
      (cloneWithLiteral strInst (some (.strV "X"))) true =
      .unionTy [movieTD, intInst] ∧
    narrowTypeForDiscriminatedTupleComparison demoEvaluator
      (.unionTy [demoTuple, intInst]) (cloneWithLiteral intInst (some (.intV 0)))
      (cloneWithLiteral intInst (some (.intV 0))) true =
      .unionTy [demoTuple, intInst] :=
  ⟨(discriminator_all_or_nothing demoEvaluator (.unionTy [movieTD, intInst])
      (cloneWithLiteral strInst (some (.strV "director")))
      (cloneWithLiteral strInst (some (.strV "X"))) true).1
    ⟨intInst, List.Mem.tail _ (List.Mem.head _), by decide⟩,
   (discriminator_all_or_nothing demoEvaluator (.unionTy [demoTuple, intInst])
      (cloneWithLiteral intInst (some (.intV 0)))
      (cloneWithLiteral intInst (some (.intV 0))) true).2
    ⟨intInst, List.Mem.tail _ (List.Mem.head _), by decide⟩⟩

/-- Helper: a non-union type is its own single subtype. -/
theorem subtypesOf_atom {t : Ty} (h : t.isUnion = false) : t.subtypesOf = [t] := by
  cases t <;> first | rfl | exact absurd h (by simp [Ty.isUnion])

/-- Helper: flattening a list of non-union types is the identity. -/
theorem flatMap_subtypesOf_eq {l : List Ty} (h : ∀ s ∈ l, s.isUnion = false) :
    l.flatMap Ty.subtypesOf = l := by
  induction l with
  | nil => rfl
  | cons a l ih =>
      rw [List.flatMap_cons, subtypesOf_atom (h a (List.mem_cons_self a l)),
        ih fun s hs => h s (List.mem_cons_of_mem a hs)]
      rfl

/-- Helper: filtering Never out of a list without Never is the identity. -/
theorem filter_not_never_eq {l : List Ty} (h : ∀ s ∈ l, s.isNever = false) :
    (l.filter fun t => !t.isNever) = l := by
  induction l with
  | nil => rfl
  | cons a l ih =>
      rw [List.filter_cons, ih fun s hs => h s (List.mem_cons_of_mem a hs)]
      simp [h a (List.mem_cons_self a l)]

/-- Helper: deduplication by structural equality leaves a pairwise-distinct
list unchanged. -/
theorem dedupFold_eq {l : List Ty} : ∀ {acc : List Ty},
    (∀ a ∈ acc, ∀ t ∈ l, isTypeSame a t = false) →
    l.Pairwise (fun a b => isTypeSame a b = false) →
    l.foldl (fun acc t => if acc.any fun u => isTypeSame u t then acc
      else acc ++ [t]) acc = acc ++ l := by
  induction l with
  | nil => intro acc _ _; simp
  | cons a l ih =>
      intro acc hacc hl
      have hnota : (acc.any fun u => isTypeSame u a) = false := by
        rw [List.any_eq_false]
        intro u hu
        simp [hacc u hu a (List.mem_cons_self a l)]
      have hstep : (if acc.any fun u => isTypeSame u a then acc
          else acc ++ [a]) = acc ++ [a] := by
        rw [hnota]
        rfl
      rw [List.foldl_cons, hstep,
        @ih (acc ++ [a]) ?hacc (List.pairwise_cons.mp hl).2]
      · simp
      case hacc =>
        intro b hb t ht
        rcases List.mem_append.mp hb with hb | hb
        · exact hacc b hb t (List.mem_cons_of_mem a ht)
        · rcases List.mem_singleton.mp hb with rfl
          exact (List.pairwise_cons.mp hl).1 t ht

/-- Helper: combining a singleton flat list is its element. -/
theorem combineTypes_single {x : Ty} (hU : x.isUnion = false)
    (hN : x.isNever = false) : combineTypes [x] = x := by
  simp only [combineTypes, List.flatMap_cons, List.flatMap_nil,
    subtypesOf_atom hU, List.append_nil, List.filter_cons, hN]
  rfl

/-- Helper: combining a flat, Never-free, pairwise-distinct list of at
least two subtypes keeps a union of that list. -/
theorem combineTypes_ge2 {l : List Ty}
    (hflat : ∀ s ∈ l, s.isUnion = false ∧ s.isNever = false)
    (hpair : l.Pairwise fun a b => isTypeSame a b = false)
    (h2 : 2 ≤ l.length) : combineTypes l = Ty.unionTy l := by
  simp only [combineTypes]
  rw [flatMap_subtypesOf_eq fun s hs => (hflat s hs).1,
    filter_not_never_eq fun s hs => (hflat s hs).2,
    dedupFold_eq (by intro a ha; cases ha) hpair]
  simp only [List.nil_append]
  match l, h2 with
  | a :: b :: t, _ => rfl

/-- Narrowing behavior of a single subtype under an `x is None` test, as
the claim words it: a None subtype is kept exactly in the positive branch,
Any/Unknown is kept in both branches, an `object` subtype positive-narrows
to None carrying that subtype conditions, and any other subtype is dropped
in the positive branch and kept in the negative branch. -/
def narrowIsNoneSpecAtom (isPositiveTest : Bool) (subtype : Ty) : Option Ty :=
  if subtype.isAnyOrUnknown then
    some subtype
  else if subtype.isClassInstance && subtype.isBuiltInClass "object" then
    if isPositiveTest then
      some (addConditionToType (.noneTy true []) subtype.getTypeCondition)
    else
      some subtype
  else if subtype.isNoneInstance then
    if isPositiveTest then some subtype else none
  else
    if isPositiveTest then none else some subtype

/-- The `x is None` narrowing as the claim words it, per subtype. -/
def narrowIsNoneSpec (t : Ty) (isPositiveTest : Bool) : Ty :=
  combineTypes ((t.subtypesOf).filterMap (narrowIsNoneSpecAtom isPositiveTest))

/-- Helper: on a non-TypeVar subtype the source callback agrees with the
claim-side behavior. -/
theorem isNoneSubtypeMap_eq_spec {s : Ty} (pos : Bool) (h : s.isTypeVar = false) :
    isNoneSubtypeMap pos s s = narrowIsNoneSpecAtom pos s := by
  have hastv : s.asTypeVar = none := by
    cases s <;> first | rfl | exact absurd h (by simp [Ty.isTypeVar])
  simp only [isNoneSubtypeMap, narrowIsNoneSpecAtom, hastv]
  cases pos <;> cases hN : s.isNoneInstance <;> simp [hN]

/-- Helper: the identity transform mapped over a list of subtypes. -/
theorem filterMap_some_transform (l : List Ty) :
    (l.filterMap fun s => some (transformPossibleRecursiveTypeAlias s)) = l := by
  induction l with
  | nil => rfl
  | cons a t ih => simp [transformPossibleRecursiveTypeAlias, ih]

/-- Helper: expanding a list without TypeVars applies the callback
diagonally. -/
theorem flatMapExpand_eq (ev : Evaluator) (f : Ty → Ty → Option Ty)
    {l : List Ty} (h : ∀ s ∈ l, s.isTypeVar = false) :
    (l.flatMap fun unexpanded =>
      if unexpanded.isTypeVar then
        ((ev.makeTopLevelTypeVarsConcrete unexpanded).subtypesOf).filterMap
          fun expanded => f expanded unexpanded
      else (f unexpanded unexpanded).toList) = l.filterMap fun s => f s s := by
  induction l with
  | nil => rfl
  | cons a l ih =>
      have ha : a.isTypeVar = false := h a (List.mem_cons_self a l)
      rw [List.flatMap_cons, List.filterMap_cons, ha]
      have hif : (if false = true then
          List.filterMap (fun expanded => f expanded a)
            (ev.makeTopLevelTypeVarsConcrete a).subtypesOf
        else (f a a).toList) = (f a a).toList := rfl
      rw [hif, ih fun s hs => h s (List.mem_cons_of_mem a hs)]
      cases f a a <;> rfl

/-- Helper: expanding TypeVars over a type without TypeVar subtypes is a
plain partial map over the subtypes. -/
theorem mapSubtypesExpandTypeVars_nontv (ev : Evaluator) (t : Ty)
    (f : Ty → Ty → Option Ty) (h : ∀ s ∈ t.subtypesOf, s.isTypeVar = false) :
    mapSubtypesExpandTypeVars ev t f =
      combineTypes ((t.subtypesOf).filterMap fun s => f s s) := by
  unfold mapSubtypesExpandTypeVars
  congr 1
  exact flatMapExpand_eq ev f h

/-- C7: on any flat input without TypeVar subtypes, the `x is None`
narrowing (shared by the ==, != and is-not variants through an adjusted
polarity bit) behaves exactly as claimed per subtype; from `int | None` the
positive branch yields `None` and the negative branch yields `int`. -/
theorem narrowTypeForIsNone_matches_spec (ev : Evaluator) (t : Ty) (pos : Bool)
    (hnotv : ∀ s ∈ t.subtypesOf, s.isTypeVar = false)
    (hflat : ∀ s ∈ t.subtypesOf, s.isUnion = false ∧ s.isNever = false)
    (hpair : (t.subtypesOf).Pairwise fun a b => isTypeSame a b = false) :
    narrowTypeForIsNone ev t pos = narrowIsNoneSpec t pos ∧
    narrowTypeForIsNone demoEvaluator (.unionTy [intInst, noneInst]) true =
      Ty.noneTy true [] ∧
    narrowTypeForIsNone demoEvaluator (.unionTy [intInst, noneInst]) false =
      intInst := by
  refine ⟨?_, by rfl, by rfl⟩
  have hcongr : ∀ u : Ty, u.subtypesOf = t.subtypesOf →
      mapSubtypesExpandTypeVars ev u (isNoneSubtypeMap pos) =
        narrowIsNoneSpec t pos := by
    intro u hu
    rw [mapSubtypesExpandTypeVars_nontv ev u _ (hu ▸ hnotv), hu, narrowIsNoneSpec]
    congr 1
    exact List.filterMap_congr fun s hs => isNoneSubtypeMap_eq_spec pos (hnotv s hs)
  cases t with
  | unionTy l =>
      show mapSubtypesExpandTypeVars ev
        (combineTypes (l.filterMap fun s =>
          some (transformPossibleRecursiveTypeAlias s)))
        (isNoneSubtypeMap pos) = _
      rw [filterMap_some_transform]
      cases l with
      | nil => cases pos <;> rfl
      | cons x l2 =>
        cases l2 with
        | nil =>
            rw [combineTypes_single (hflat x (List.mem_cons_self x [])).1
              (hflat x (List.mem_cons_self x [])).2]
            exact hcongr x (subtypesOf_atom (hflat x (List.mem_cons_self x [])).1)
        | cons y l3 =>
            have hflat2 : ∀ s ∈ (x :: y :: l3), s.isUnion = false ∧
                s.isNever = false := hflat
            have hpair2 : (x :: y :: l3).Pairwise
                (fun a b => isTypeSame a b = false) := hpair
            rw [combineTypes_ge2 hflat2 hpair2 (by simp)]
            exact hcongr (Ty.unionTy (x :: y :: l3)) rfl
  | classTy n f i tp sc ta tu lit fl u c => exact hcongr _ rfl
  | funcTy p fl sc pr => exact hcongr _ rfl
  | typeVarTy n s b cs v ps vd sy ss si ii u c => exact hcongr _ rfl
  | moduleTy => exact hcongr _ rfl
  | noneTy i c => exact hcongr _ rfl
  | anyTy => exact hcongr _ rfl
  | unknownTy => exact hcongr _ rfl
  | neverTy => exact hcongr _ rfl

/-- C7 witness: the specification behavior on the concrete input
`int | None` in the positive branch. -/
theorem narrowTypeForIsNone_matches_spec_witness :
    narrowTypeForIsNone demoEvaluator (.unionTy [intInst, noneInst]) true =
      narrowIsNoneSpec (.unionTy [intInst, noneInst]) true :=
  (narrowTypeForIsNone_matches_spec demoEvaluator (.unionTy [intInst, noneInst])
    true (by decide) (by decide) (by decide)).1

/-- Helper: a partial map over a single non-union subtype. -/
theorem mapSubtypes_atom {t : Ty} (h : t.isUnion = false) (f : Ty → Option Ty) :
    mapSubtypes t f = (f t).getD .neverTy := by
  cases t <;> first | rfl | exact absurd h (by simp [Ty.isUnion])

/-- The `bool` instance. -/
def boolClassInst : Ty := mkBuiltInInstance "bool"

/-- An enum member literal instance of the enum class `E`. -/
def enumLitA : Ty :=
  .classTy "E" { enumClass := true } true [] none none none
    (some (.enumV "A")) [] false []

/-- An enum class instance `E` with two fields that are not ignored for
protocol matching: the member `A` (whose effective type is the literal
instance above) and a method `describe` (whose effective type is a
function). -/
def demoEnumClass : Ty :=
  .classTy "E" { enumClass := true } true [] none none none none
    [("A", false, enumLitA), ("describe", false, Ty.funcTy [] 0 none none)]
    false []

/-- C8 counterexample: for the enum class `E`, the enumerated literals are
one (only the member `A`), while the class fields not ignored for protocol
matching number two — the claim's enumeration as the set of such fields is
wrong — and consequently a negative literal comparison of a bare `E`
against `Literal[E.A]` collapses to Never rather than to the union of the
remaining non-ignored fields. -/
theorem enumerateLiteralsForType_field_mismatch :
    (enumerateLiteralsForType demoEnumClass).map List.length = some 1 ∧
    ((fieldsOf demoEnumClass).filter fun f => !f.2.1).length = 2 ∧
    narrowTypeForLiteralComparison demoEvaluator demoEnumClass enumLitA
      false false = Ty.neverTy :=
  ⟨rfl, rfl, rfl⟩

/-- C8 amended: for a reference subtype sharing the literal's generic class
and carrying no literal value, the positive branch returns the literal
itself and the negative branch returns the union of the enumerable literals
of the class excluding the literal when that enumeration is nonempty —
where the enumeration is {True, False} for bool, and for an enum the
effective types of the fields not ignored for protocol matching whose
effective type is a literal instance of the enum class — and otherwise
retains the subtype unchanged. -/
theorem narrowTypeForLiteralComparison_no_literal (ev : Evaluator)
    (subtype literalType : Ty) (isIsOperator : Bool)
    (hconc : ev.makeTopLevelTypeVarsConcrete subtype = subtype)
    (hinst : subtype.isClassInstance = true)
    (hsame : isSameGenericClass literalType subtype = true)
    (hnolit : subtype.literalValue = none) :
    narrowTypeForLiteralComparison ev subtype literalType true isIsOperator =
      literalType ∧
    narrowTypeForLiteralComparison ev subtype literalType false isIsOperator =
      (match enumerateLiteralsForType subtype with
       | some allLiteralTypes =>
         if allLiteralTypes.length > 0 then
           combineTypes
             (allLiteralTypes.filter fun t => !isLiteralValueSame t literalType)
         else subtype
       | none => subtype) ∧
    enumerateLiteralsForType boolClassInst =
      some [cloneWithLiteral boolClassInst (some (.boolV true)),
            cloneWithLiteral boolClassInst (some (.boolV false))] := by
  have hU : subtype.isUnion = false := by
    cases subtype <;> simp_all [Ty.isClassInstance, Ty.isUnion]
  refine ⟨?_, ?_, rfl⟩
  · rw [narrowTypeForLiteralComparison, mapSubtypes_atom hU]
    simp [hconc, hinst, hsame, hnolit]
  · rw [narrowTypeForLiteralComparison, mapSubtypes_atom hU]
    cases henum : enumerateLiteralsForType subtype with
    | none => simp [hconc, hinst, hsame, hnolit, henum]
    | some allLiteralTypes =>
        by_cases hlen : allLiteralTypes.length > 0 <;>
          simp [hconc, hinst, hsame, hnolit, henum, hlen]

/-- C8 amended witness: the no-literal comparison applied to the concrete
enum class `E` against `Literal[E.A]`. -/
theorem narrowTypeForLiteralComparison_no_literal_witness :
    narrowTypeForLiteralComparison demoEvaluator demoEnumClass enumLitA
      true false = enumLitA :=
  (narrowTypeForLiteralComparison_no_literal demoEvaluator demoEnumClass
    enumLitA false rfl (by decide) (by decide) rfl).1

/-- Helper: looking up a just-written binding returns it. -/
theorem getTypeVar_set_self (ctx : TypeVarContext) (tv : TypeVarType)
    (n w : Option Ty) (r : Bool) :
    (ctx.setTypeVarType tv n w r).getTypeVar tv =
      some ⟨tv.name, tv.scopeId, n, w, r⟩ := by
  unfold TypeVarContext.setTypeVarType TypeVarContext.getTypeVar
  exact List.find?_cons_of_pos _ (by simp)

/-- Helper: a filtered search is unaffected when the filter keeps every
hit. -/
theorem find?_filter_of_imp {α : Type} (l : List α) (p q : α → Bool)
    (h : ∀ e, q e = true → p e = true) : (l.filter p).find? q = l.find? q := by
  induction l with
  | nil => rfl
  | cons a l ih =>
      rw [List.filter_cons]
      cases hq : q a with
      | true =>
          rw [if_pos (by simp [h a hq]), List.find?_cons_of_pos _ hq,
            List.find?_cons_of_pos _ hq]
      | false =>
          cases hp : p a with
          | true =>
              rw [if_pos (by simp [hp]), List.find?_cons_of_neg _ (by simp [hq]),
                List.find?_cons_of_neg _ (by simp [hq]), ih]
          | false =>
              rw [if_neg (by simp [hp]), List.find?_cons_of_neg _ (by simp [hq]), ih]

/-- Helper: writing one binding leaves the others readable. -/
theorem getTypeVar_set_other (ctx : TypeVarContext) (tv tv' : TypeVarType)
    (n w : Option Ty) (r : Bool)
    (h : ¬(tv'.name = tv.name ∧ tv'.scopeId = tv.scopeId)) :
    (ctx.setTypeVarType tv n w r).getTypeVar tv' = ctx.getTypeVar tv' := by
  unfold TypeVarContext.setTypeVarType TypeVarContext.getTypeVar
  rw [List.find?_cons_of_neg _ (by
    simp only [Bool.and_eq_true, beq_iff_eq]
    exact fun hc => h ⟨hc.1.symm, hc.2.symm⟩)]
  exact find?_filter_of_imp _ _ _ (by
    intro e he
    simp only [Bool.and_eq_true, beq_iff_eq] at he
    rw [he.1, he.2]
    simp only [Bool.not_eq_true', Bool.and_eq_false_iff]
    by_cases h1 : tv'.name = tv.name
    · right
      rw [beq_eq_false_iff_ne]
      exact fun h2 => h ⟨h1, h2⟩
    · left
      rw [beq_eq_false_iff_ne]
      exact h1)

/-- Helper: a fold of guarded writes leaves a key unread by any step
unchanged. -/
theorem populateFold_preserves (type : ClassType) (tv : TypeVarType) :
    ∀ (pairs : List (TParam × Ty)) (ctx : TypeVarContext),
    (∀ q ∈ pairs, ¬(tv.name = q.1.name ∧ tv.scopeId = q.1.scopeId)) →
    (pairs.foldl (fun ctx pair =>
      let typeVarType := pair.2
      let skip := match typeVarType.asTypeVar with
        | some tv => tv.scopeId == type.typeVarScopeId
        | none => false
      if skip then ctx
      else ctx.setTypeVarType (tparamToTypeVar pair.1)
        (if pair.1.variance == Variance.covariant then none else some typeVarType)
        (if pair.1.variance == Variance.contravariant then none else some typeVarType)
        false) ctx).getTypeVar tv = ctx.getTypeVar tv := by
  intro pairs
  induction pairs with
  | nil => intro ctx _; rfl
  | cons q pairs ih =>
      intro ctx hk
      rw [List.foldl_cons]
      rw [ih _ fun q2 hq2 => hk q2 (List.mem_cons_of_mem q hq2)]
      by_cases hskip : (match q.2.asTypeVar with
        | some tv => tv.scopeId == type.typeVarScopeId
        | none => false) = true
      · simp only [hskip]
        rfl
      · simp only [Bool.not_eq_true] at hskip
        simp only [hskip]
        exact getTypeVar_set_other _ _ _ _ _ _ (hk q (List.mem_cons_self q pairs))

/-- Helper: after the same-generic-class population fold, each non-skipped
parameter's binding holds the expected argument on the bounds chosen by its
variance. -/
theorem populateFold_lookup (type : ClassType) :
    ∀ (pairs : List (TParam × Ty)) (ctx : TypeVarContext) (p : TParam) (arg : Ty),
    (p, arg) ∈ pairs →
    pairs.Pairwise (fun a b => ¬(a.1.name = b.1.name ∧ a.1.scopeId = b.1.scopeId)) →
    (∀ q ∈ pairs, (match q.2.asTypeVar with
       | some tv => tv.scopeId == type.typeVarScopeId
       | none => false) = false) →
    (pairs.foldl (fun ctx pair =>
      let typeVarType := pair.2
      let skip := match typeVarType.asTypeVar with
        | some tv => tv.scopeId == type.typeVarScopeId
        | none => false
      if skip then ctx
      else ctx.setTypeVarType (tparamToTypeVar pair.1)
        (if pair.1.variance == Variance.covariant then none else some typeVarType)
        (if pair.1.variance == Variance.contravariant then none else some typeVarType)
        false) ctx).getTypeVar (tparamToTypeVar p) =
      some ⟨p.name, p.scopeId,
        (if p.variance == Variance.covariant then none else some arg),
        (if p.variance == Variance.contravariant then none else some arg), false⟩ := by
  intro pairs
  induction pairs with
  | nil => intro ctx p arg hmem; cases hmem
  | cons q pairs ih =>
      intro ctx p arg hmem hpair hskip
      rw [List.foldl_cons]
      rcases List.mem_cons.mp hmem with rfl | hmem2
      · rw [populateFold_preserves type (tparamToTypeVar (p, arg).1) pairs _
          (by
            intro q2 hq2
            exact (List.pairwise_cons.mp hpair).1 q2 hq2)]
        have hs := hskip (p, arg) (List.mem_cons_self _ pairs)
        simp only [hs]
        exact getTypeVar_set_self _ _ _ _ _
      · exact ih _ p arg hmem2 (List.pairwise_cons.mp hpair).2
          fun q2 hq2 => hskip q2 (List.mem_cons_of_mem q hq2)

/-- A covariant type parameter of a demonstration generic class. -/
def pParam : TParam := ⟨"P", some "s", .covariant⟩

/-- A generic class `Box[P]` with one covariant parameter. -/
def boxClass : ClassType :=
  { name := "Box", isInstance := true, typeParams := [pParam],
    typeVarScopeId := some "s" }

/-- The expected type `Box[int]`. -/
def boxOfInt : Ty := (cloneForSpecialization boxClass [intInst]).toTy

/-- C2 counterexample: populating from the same-generic-class expected type
`Box[int]` records, for the covariant parameter `P`, a binding whose narrow
bound is absent and whose wide bound is `int` — the opposite of the claim
that a covariant parameter gets only its narrow bound set. -/
theorem populate_covariant_sets_wide_not_narrow :
    (populateTypeVarContextBasedOnExpectedType demoEvaluator boxClass boxOfInt
      (TypeVarContext.create (some "s")) none).1 = true ∧
    ((populateTypeVarContextBasedOnExpectedType demoEvaluator boxClass boxOfInt
      (TypeVarContext.create (some "s")) none).2.getTypeVar
        (tparamToTypeVar pParam)) =
      some ⟨"P", some "s", none, some intInst, false⟩ :=
  ⟨rfl, rfl⟩

/-- C2 amended: when the expected type is the same generic class as the
target, each recorded type argument is copied into the context respecting
the declared variance with the bounds swapped relative to the claim — a
covariant parameter gets only its wide bound set to the expected argument,
a contravariant parameter gets only its narrow bound set, and an invariant
parameter gets both bounds set — for every parameter whose argument is not
a TypeVar scoped to the target class. -/
theorem populate_same_class_respects_variance (ev : Evaluator)
    (type expectedClass : ClassType) (args : List Ty) (ctx : TypeVarContext)
    (live : Option (List String)) (p : TParam) (arg : Ty)
    (hargs : expectedClass.typeArgs = some args)
    (hsame : isSameGenericClass expectedClass.toTy type.toTy = true)
    (hmem : (p, arg) ∈ expectedClass.typeParams.zip args)
    (hpair : (expectedClass.typeParams.zip args).Pairwise
      (fun a b => ¬(a.1.name = b.1.name ∧ a.1.scopeId = b.1.scopeId)))
    (hskip : ∀ q ∈ expectedClass.typeParams.zip args,
      (match q.2.asTypeVar with
       | some tv => tv.scopeId == type.typeVarScopeId
       | none => false) = false) :
    (populateTypeVarContextBasedOnExpectedType ev type expectedClass.toTy ctx
      live).1 = true ∧
    ((populateTypeVarContextBasedOnExpectedType ev type expectedClass.toTy ctx
      live).2.getTypeVar (tparamToTypeVar p)) =
      some ⟨p.name, p.scopeId,
        (if p.variance == Variance.covariant then none else some arg),
        (if p.variance == Variance.contravariant then none else some arg),
        false⟩ := by
  have hpop : populateTypeVarContextBasedOnExpectedType ev type expectedClass.toTy
      ctx live =
      (true, (expectedClass.typeParams.zip args).foldl (fun ctx pair =>
        let typeVarType := pair.2
        let skip := match typeVarType.asTypeVar with
          | some tv => tv.scopeId == type.typeVarScopeId
          | none => false
        if skip then ctx
        else ctx.setTypeVarType (tparamToTypeVar pair.1)
          (if pair.1.variance == Variance.covariant then none else some typeVarType)
          (if pair.1.variance == Variance.contravariant then none
           else some typeVarType)
          false) ctx) := by
    have hasc : (expectedClass.toTy).asClass = some expectedClass := rfl
    unfold populateTypeVarContextBasedOnExpectedType
    split
    · next hx => exact absurd hx (by simp [ClassType.toTy, Ty.isAnyExactly])
    · split
      · next heq => rw [hasc] at heq; cases heq
      · next ec heq =>
          rw [hasc] at heq
          injection heq with heq2
          subst heq2
          split
          · next heq3 => rw [hargs] at heq3; cases heq3
          · next expectedTypeArgs heq3 =>
              rw [hargs] at heq3
              injection heq3 with heq4
              subst heq4
              unfold specializedClassPairs
              rw [hargs]
  rw [hpop]
  exact ⟨rfl, populateFold_lookup type _ ctx p arg hmem hpair hskip⟩

/-- C2 amended witness: the variance-respecting copy applied to the
concrete class `Box[P]` with expected type `Box[int]`. -/
theorem populate_same_class_respects_variance_witness :
    ((populateTypeVarContextBasedOnExpectedType demoEvaluator boxClass boxOfInt
      (TypeVarContext.create (some "s")) none).2.getTypeVar
        (tparamToTypeVar pParam)) =
      some ⟨"P", some "s", none, some intInst, false⟩ := by
  have h := (populate_same_class_respects_variance demoEvaluator boxClass
    (cloneForSpecialization boxClass [intInst]) [intInst]
    (TypeVarContext.create (some "s")) none pParam intInst rfl (by decide)
    (List.mem_cons_self _ []) (by decide) (by decide)).2
  exact h

/-- Helper: the compatibility update preserves a cleared flag and the
recorded index. -/
theorem stepCompatUpdate_fields (c : Bool) (found : Option Ty)
    (st : ConstrainedFoldState) :
    ((stepCompatUpdate c found st).isCompatible = true →
      st.isCompatible = true) ∧
    (stepCompatUpdate c found st).unconditionalConstraintIndex =
      st.unconditionalConstraintIndex := by
  unfold stepCompatUpdate
  split <;> simp

/-- Helper: the index update preserves a cleared flag. -/
theorem stepUncondUpdate_compat_false (idx? : Option Nat) (s : Ty)
    (st : ConstrainedFoldState) (h : st.isCompatible = false) :
    (stepUncondUpdate idx? s st).isCompatible = false := by
  unfold stepUncondUpdate
  split
  · split
    · simp [h]
    · exact h
  · exact h

/-- Helper: one constrained-mapping step preserves an already-cleared
compatibility flag. -/
theorem constrainedFoldStep_compat_false (ev : Evaluator) (d : TypeVarType)
    (c : Bool) (rc : Nat) (st : ConstrainedFoldState) (s : Ty)
    (h : st.isCompatible = false) :
    (constrainedFoldStep ev d c rc st s).isCompatible = false := by
  unfold constrainedFoldStep
  split
  · exact h
  · show (stepUncondUpdate _ _ _).isCompatible = false
    apply stepUncondUpdate_compat_false
    unfold stepCompatUpdate
    split <;> simp [h]

/-- Helper: one constrained-mapping step either keeps the recorded
unconditional constraint index or clears compatibility. -/
theorem constrainedFoldStep_uncond (ev : Evaluator) (d : TypeVarType)
    (c : Bool) (rc : Nat) (st : ConstrainedFoldState) (s : Ty) (i : Nat)
    (h : st.unconditionalConstraintIndex = some i) :
    (constrainedFoldStep ev d c rc st s).unconditionalConstraintIndex = some i ∨
    (constrainedFoldStep ev d c rc st s).isCompatible = false := by
  unfold constrainedFoldStep
  split
  · exact Or.inl h
  · have hidx : (stepCompatUpdate c (narrowestConstraintFor ev d s rc).1
        st).unconditionalConstraintIndex = some i := by
      rw [(stepCompatUpdate_fields c _ st).2, h]
    show (stepUncondUpdate _ _ _).unconditionalConstraintIndex = some i ∨
      (stepUncondUpdate _ _ _).isCompatible = false
    generalize (stepCompatUpdate c (narrowestConstraintFor ev d s rc).1 st) =
      st₁ at hidx
    unfold stepUncondUpdate
    split
    · next idx heq =>
        split
        · by_cases hij : idx = i
          · subst hij
            exact Or.inl rfl
          · right
            simp [hidx, bne_iff_ne, Ne.symm hij]
        · exact Or.inl hidx
    · exact Or.inl hidx

/-- Helper: a step on a non-Any unconditional subtype that maps to a
constraint records that constraint's index. -/
theorem constrainedFoldStep_sets_uncond (ev : Evaluator) (d : TypeVarType)
    (c : Bool) (rc : Nat) (st : ConstrainedFoldState) (s : Ty) (i : Nat)
    (hna : s.isAnyOrUnknown = false) (hcond : s.getTypeCondition = [])
    (hidx : (narrowestConstraintFor ev d s rc).2 = some i) :
    (constrainedFoldStep ev d c rc st s).unconditionalConstraintIndex = some i := by
  unfold constrainedFoldStep
  split
  · simp_all
  · show (stepUncondUpdate _ _ _).unconditionalConstraintIndex = some i
    unfold stepUncondUpdate
    split
    · next idx heq =>
        rw [hidx] at heq
        injection heq with heq2
        subst heq2
        split
        · rfl
        · simp_all
    · next heq => rw [hidx] at heq; cases heq

/-- Helper: the constrained mapping never restores a cleared compatibility
flag. -/
theorem constrainedFold_compat_mono (ev : Evaluator) (d : TypeVarType)
    (c : Bool) (rc : Nat) :
    ∀ (l : List Ty) (st : ConstrainedFoldState), st.isCompatible = false →
    (l.foldl (constrainedFoldStep ev d c rc) st).isCompatible = false := by
  intro l
  induction l with
  | nil => intro st h; exact h
  | cons a l ih =>
      intro st h
      rw [List.foldl_cons]
      exact ih _ (constrainedFoldStep_compat_false ev d c rc st a h)

/-- Helper: when the fold ends compatible, the recorded unconditional index
never changes. -/
theorem constrainedFold_uncond_stable (ev : Evaluator) (d : TypeVarType)
    (c : Bool) (rc : Nat) :
    ∀ (l : List Ty) (st : ConstrainedFoldState) (i : Nat),
    st.unconditionalConstraintIndex = some i →
    (l.foldl (constrainedFoldStep ev d c rc) st).isCompatible = true →
    (l.foldl (constrainedFoldStep ev d c rc) st).unconditionalConstraintIndex =
      some i := by
  intro l
  induction l with
  | nil => intro st i h _; exact h
  | cons a l ih =>
      intro st i h hcomp
      rw [List.foldl_cons] at hcomp ⊢
      rcases constrainedFoldStep_uncond ev d c rc st a i h with hkeep | hfalse
      · exact ih _ i hkeep hcomp
      · rw [constrainedFold_compat_mono ev d c rc l _ hfalse] at hcomp
        cases hcomp

/-- Helper: when the fold ends compatible, its unconditional index is the
index of every non-Any unconditional member that maps to a constraint. -/
theorem constrainedFold_mem (ev : Evaluator) (d : TypeVarType)
    (c : Bool) (rc : Nat) :
    ∀ (l : List Ty) (st : ConstrainedFoldState) (a : Ty) (i : Nat),
    a ∈ l → a.isAnyOrUnknown = false → a.getTypeCondition = [] →
    (narrowestConstraintFor ev d a rc).2 = some i →
    (l.foldl (constrainedFoldStep ev d c rc) st).isCompatible = true →
    (l.foldl (constrainedFoldStep ev d c rc) st).unconditionalConstraintIndex =
      some i := by
  intro l
  induction l with
  | nil => intro st a i hmem; cases hmem
  | cons x l ih =>
      intro st a i hmem hna hcond hidx hcomp
      rw [List.foldl_cons] at hcomp ⊢
      rcases List.mem_cons.mp hmem with rfl | hmem2
      · exact constrainedFold_uncond_stable ev d c rc l _ i
          (constrainedFoldStep_sets_uncond ev d c rc st a i hna hcond hidx) hcomp
      · exact ih _ a i hmem2 hna hcond hidx hcomp

/-- Helper: two non-Any unconditional subtypes mapping to distinct
constraints clear the compatibility flag. -/
theorem constrainedFold_distinct (ev : Evaluator) (d : TypeVarType)
    (c : Bool) (rc : Nat) (l : List Ty) (st : ConstrainedFoldState)
    (a b : Ty) (i j : Nat) (hma : a ∈ l) (hmb : b ∈ l)
    (hnaa : a.isAnyOrUnknown = false) (hnab : b.isAnyOrUnknown = false)
    (hca : a.getTypeCondition = []) (hcb : b.getTypeCondition = [])
    (hia : (narrowestConstraintFor ev d a rc).2 = some i)
    (hib : (narrowestConstraintFor ev d b rc).2 = some j) (hij : i ≠ j) :
    (l.foldl (constrainedFoldStep ev d c rc) st).isCompatible = false := by
  cases hcomp : (l.foldl (constrainedFoldStep ev d c rc) st).isCompatible with
  | false => rfl
  | true =>
      have h1 := constrainedFold_mem ev d c rc l st a i hma hnaa hca hia hcomp
      have h2 := constrainedFold_mem ev d c rc l st b j hmb hnab hcb hib hcomp
      rw [h1] at h2
      injection h2 with h3
      exact absurd h3 hij

/-- Helper: the constrained branch fails and leaves the context unchanged
when two non-Any unconditional source subtypes map to distinct constraints
and no constraint accepts the whole union. -/
theorem assignConstrainedTypeVar_distinct (ev : Evaluator) (destType : TypeVarType)
    (subs : List Ty) (ctx : TypeVarContext) (flags : AssignFlags) (rc : Nat)
    (inScope : Bool) (a b : Ty) (i j : Nat)
    (hconc : ev.makeTopLevelTypeVarsConcrete (Ty.unionTy subs) = Ty.unionTy subs)
    (hma : a ∈ subs) (hmb : b ∈ subs)
    (hnaa : a.isAnyOrUnknown = false) (hnab : b.isAnyOrUnknown = false)
    (hca : a.getTypeCondition = []) (hcb : b.getTypeCondition = [])
    (hia : (narrowestConstraintFor ev destType a rc).2 = some i)
    (hib : (narrowestConstraintFor ev destType b rc).2 = some j) (hij : i ≠ j)
    (hfall : ∀ cst ∈ destType.constraints,
      ev.assignType
        (if !destType.isInstance then convertToInstantiable cst else cst)
        (Ty.unionTy subs) .default rc = false) :
    assignConstrainedTypeVar ev destType (Ty.unionTy subs) ctx flags rc inScope =
      (false, ctx) := by
  have hcomp := constrainedFold_distinct ev destType flags.reverseTypeVarMatching
    rc subs {} a b i j hma hmb hnaa hnab hca hcb hia hib hij
  have hfind : (destType.constraints.find? fun constraint =>
      ev.assignType
        (if !destType.isInstance then convertToInstantiable constraint
         else constraint)
        (Ty.unionTy subs) .default rc) = none :=
    List.find?_eq_none.mpr fun cst hc => by simp only [hfall cst hc]; simp
  unfold assignConstrainedTypeVar
  rw [hconc]
  simp only [Ty.isTypeVar, Ty.isUnion, Ty.subtypesOf, Bool.false_eq_true,
    if_false, hcomp, Bool.not_false, Bool.or_true, if_true, hfind]

/-- C3 amended: an `assign_type_var` call on a constrained TypeVar whose
source union has two non-Any subtypes that are not conditionally dependent
on the destination and map to distinct constraints returns false and
records no binding, provided additionally that the union as a whole is
assignable to no constraint (otherwise that constraint is used and the
call succeeds). -/
theorem assignTypeToTypeVar_distinct_constraints (ev : Evaluator)
    (destType : TypeVarType) (subs : List Ty) (ctx : TypeVarContext)
    (flags : AssignFlags) (rc : Nat) (sid : String) (a b : Ty) (i j : Nat)
    (hscope : destType.scopeId = some sid)
    (hsolve : ctx.hasSolveForScope sid = true)
    (hskip : flags.skipSolveTypeVars = false)
    (hps : destType.isParamSpec = false)
    (hvar : destType.isVariadic = false)
    (hconstr : destType.constraints.isEmpty = false)
    (hconc : ev.makeTopLevelTypeVarsConcrete (Ty.unionTy subs) = Ty.unionTy subs)
    (hma : a ∈ subs) (hmb : b ∈ subs)
    (hnaa : a.isAnyOrUnknown = false) (hnab : b.isAnyOrUnknown = false)
    (hca : a.getTypeCondition = []) (hcb : b.getTypeCondition = [])
    (hia : (narrowestConstraintFor ev destType a rc).2 = some i)
    (hib : (narrowestConstraintFor ev destType b rc).2 = some j) (hij : i ≠ j)
    (hfall : ∀ cst ∈ destType.constraints,
      ev.assignType
        (if !destType.isInstance then convertToInstantiable cst else cst)
        (Ty.unionTy subs) .default rc = false) :
    assignTypeToTypeVar ev destType (Ty.unionTy subs) ctx flags rc =
      (false, ctx) := by
  unfold assignTypeToTypeVar
  split
  · next heq => rw [hscope] at heq; cases heq
  · next scopeId heq =>
      rw [hscope] at heq
      injection heq with heq2
      subst heq2
      rw [if_pos hsolve]
      unfold assignTypeToTypeVarMain
      rw [if_neg (by simp [hskip]), if_neg (by simp [hps])]
      simp only [hvar, Bool.false_and, Bool.false_eq_true, if_false,
        Ty.isClassInstance, Bool.and_false, Bool.false_and]
      rw [if_pos (by simp [hconstr])]
      exact assignConstrainedTypeVar_distinct ev destType subs ctx flags rc true
        a b i j hconc hma hmb hnaa hnab hca hcb hia hib hij hfall

/-- The constrained TypeVar `T` with constraints `{str, bytes}`. -/
def tAnyStr : TypeVarType :=
  { name := "T", scopeId := some "s", constraints := [strInst, bytesInst] }

/-- The constrained TypeVar `T` with constraints
`{str, bytes, str | bytes}`. -/
def tRescue : TypeVarType :=
  { name := "T", scopeId := some "s",
    constraints := [strInst, bytesInst, Ty.unionTy [strInst, bytesInst]] }

/-- C3 counterexample: with constraints `{str, bytes, str | bytes}`, the
source subtypes `str` and `bytes` are unconditional and map to the distinct
constraints 0 and 1, yet the call succeeds and records the binding
`str | bytes`, because the union as a whole is assignable to the third
constraint. -/
theorem assignTypeToTypeVar_constraint_union_rescue :
    (assignTypeToTypeVar demoEvaluator tRescue (Ty.unionTy [strInst, bytesInst])
      (TypeVarContext.create (some "s")) .default 0).1 = true ∧
    ((assignTypeToTypeVar demoEvaluator tRescue (Ty.unionTy [strInst, bytesInst])
      (TypeVarContext.create (some "s")) .default 0).2.getTypeVar tRescue) =
      some ⟨"T", some "s", some (Ty.unionTy [strInst, bytesInst]), none, false⟩ ∧
    (narrowestConstraintFor demoEvaluator tRescue strInst 0).2 = some 0 ∧
    (narrowestConstraintFor demoEvaluator tRescue bytesInst 0).2 = some 1 ∧
    strInst.getTypeCondition = [] ∧ bytesInst.getTypeCondition = [] :=
  ⟨rfl, rfl, rfl, rfl, rfl, rfl⟩

/-- C3 amended witness: `str | bytes` assigned to `T` constrained by
`{str, bytes}` fails and leaves the context unchanged. -/
theorem assignTypeToTypeVar_distinct_constraints_witness :
    assignTypeToTypeVar demoEvaluator tAnyStr (Ty.unionTy [strInst, bytesInst])
      (TypeVarContext.create (some "s")) .default 0 =
      (false, TypeVarContext.create (some "s")) :=
  assignTypeToTypeVar_distinct_constraints demoEvaluator tAnyStr
    [strInst, bytesInst] (TypeVarContext.create (some "s")) .default 0 "s"
    strInst bytesInst 0 1 rfl (by decide) rfl rfl rfl rfl rfl
    (List.mem_cons_self _ _) (List.Mem.tail _ (List.Mem.head _))
    (by decide) (by decide) rfl rfl rfl rfl (by decide)
    (by intro cst hc
        rcases hc with _ | ⟨_, hc2⟩
        · decide
        · rcases hc2 with _ | ⟨_, hc3⟩
          · decide
          · cases hc3)

/-- Helper: the param-spec assignment performs no write when the locked
flag or the solve-for-scope guard blocks it. -/
theorem assignTypeToParamSpec_snd (ev : Evaluator) (d : TypeVarType) (s : Ty)
    (ctx : TypeVarContext) (rc : Nat)
    (hguard : (!ctx.isLocked && (match d.scopeId with
      | some sid => ctx.hasSolveForScope sid
      | none => false)) = false) :
    (assignTypeToParamSpec ev d s ctx rc).2 = ctx := by
  unfold assignTypeToParamSpec
  simp only [hguard, Bool.false_eq_true, if_false]
  split <;>
    first
      | rfl
      | (split <;>
          first
            | rfl
            | (split <;>
                first
                  | rfl
                  | (split <;>
                      first
                        | rfl
                        | (split <;> rfl))))

/-- Helper: the constrained branch performs no write when the locked flag
or the out-of-scope bit blocks it. -/
theorem assignConstrainedTypeVar_snd (ev : Evaluator) (d : TypeVarType) (s : Ty)
    (ctx : TypeVarContext) (fl : AssignFlags) (rc : Nat) (inScope : Bool)
    (hguard : (!ctx.isLocked && inScope) = false) :
    (assignConstrainedTypeVar ev d s ctx fl rc inScope).2 = ctx := by
  unfold assignConstrainedTypeVar
  simp only [hguard, Bool.false_eq_true, if_false]
  split <;>
    first
      | rfl
      | (split <;>
          first
            | rfl
            | (split <;>
                first
                  | rfl
                  | (split <;>
                      first
                        | rfl
                        | (split <;> rfl))))

/-- Helper: the unconstrained branch performs no write when the locked flag
or the out-of-scope bit blocks it. -/
theorem assignUnconstrainedTypeVar_snd (ev : Evaluator) (d : TypeVarType) (s : Ty)
    (ctx : TypeVarContext) (fl : AssignFlags) (rc : Nat) (inScope : Bool)
    (hguard : (!ctx.isLocked && inScope) = false) :
    (assignUnconstrainedTypeVar ev d s ctx fl rc inScope).2 = ctx := by
  unfold assignUnconstrainedTypeVar
  simp only [hguard, Bool.false_eq_true, if_false]
  split <;>
    first
      | rfl
      | (split <;>
          first
            | rfl
            | (split <;>
                first
                  | rfl
                  | (split <;> rfl)))

/-- Helper: the main solver body performs no write when the locked flag,
the out-of-scope bit, and the solve-for-scope guard all block it. -/
theorem assignTypeToTypeVarMain_snd (ev : Evaluator) (d : TypeVarType) (s : Ty)
    (ctx : TypeVarContext) (fl : AssignFlags) (rc : Nat) (inScope : Bool)
    (hg1 : (!ctx.isLocked && inScope) = false)
    (hg2 : (!ctx.isLocked && (match d.scopeId with
      | some sid => ctx.hasSolveForScope sid
      | none => false)) = false) :
    (assignTypeToTypeVarMain ev d s ctx fl rc inScope).2 = ctx := by
  unfold assignTypeToTypeVarMain
  split
  · rfl
  · split
    · exact assignTypeToParamSpec_snd ev d s ctx rc hg2
    · repeat' first
        | exact assignConstrainedTypeVar_snd ev d _ ctx fl rc inScope hg1
        | exact assignUnconstrainedTypeVar_snd ev d _ ctx fl rc inScope hg1
        | split

/-- C5: an `assign_type_var` call on a destination whose scope id is not in
the context's solve-for set leaves the context unchanged — no
type-variable entry and no param-spec entry is added or modified —
whatever the call returns. -/
theorem assignTypeToTypeVar_scope_isolation (ev : Evaluator)
    (destType : TypeVarType) (srcType : Ty) (ctx : TypeVarContext)
    (flags : AssignFlags) (rc : Nat) (sid : String)
    (hscope : destType.scopeId = some sid)
    (hnosolve : ctx.hasSolveForScope sid = false) :
    (assignTypeToTypeVar ev destType srcType ctx flags rc).2 = ctx := by
  have hg2 : (!ctx.isLocked && (match destType.scopeId with
      | some sid => ctx.hasSolveForScope sid
      | none => false)) = false := by
    rw [hscope]
    simp [hnosolve]
  unfold assignTypeToTypeVar
  split
  · rfl
  · next scopeId heq =>
      rw [hscope] at heq
      injection heq with heq2
      subst heq2
      rw [if_neg (by simp [hnosolve])]
      split
      · rfl
      · split
        · rfl
        · split
          · rfl
          · split
            · rfl
            · exact assignTypeToTypeVarMain_snd ev destType srcType ctx flags rc
                false (by simp) hg2

/-- C5 witness: an out-of-scope destination with an Any source — the call
succeeds yet the context is untouched. -/
theorem assignTypeToTypeVar_scope_isolation_witness :
    (assignTypeToTypeVar demoEvaluator
      { name := "U", scopeId := some "t" } Ty.anyTy
      (TypeVarContext.create (some "s")) .default 0).2 =
      TypeVarContext.create (some "s") ∧
    (assignTypeToTypeVar demoEvaluator
      { name := "U", scopeId := some "t" } Ty.anyTy
      (TypeVarContext.create (some "s")) .default 0).1 = true :=
  ⟨assignTypeToTypeVar_scope_isolation demoEvaluator
    { name := "U", scopeId := some "t" } Ty.anyTy
    (TypeVarContext.create (some "s")) .default 0 "t" rfl (by decide),
   by decide⟩

/-- C6: after a context is locked, every `assign_type_var` call performs no
write — the bindings are identical before and after — and a call that
would have to widen an existing narrow bound (covariant mode, a recorded
narrow bound that is neither structurally equal to nor accepting of the
adjusted source) returns false. -/
theorem assignTypeToTypeVar_locked (ev : Evaluator) (destType : TypeVarType)
    (srcType : Ty) (ctx : TypeVarContext) (flags : AssignFlags) (rc : Nat)
    (hlock : ctx.isLocked = true) :
    (assignTypeToTypeVar ev destType srcType ctx flags rc).2 = ctx ∧
    (∀ sid curNarrow,
      destType.scopeId = some sid → ctx.hasSolveForScope sid = true →
      flags.skipSolveTypeVars = false → destType.isParamSpec = false →
      destType.isVariadic = false → destType.isInstance = true →
      destType.constraints = [] →
      flags.reverseTypeVarMatching = false → flags.allowTypeVarNarrowing = false →
      (ctx.getTypeVar destType).bind (·.narrowBound) = some curNarrow →
      (flags.retainLiteralsForTypeVar || ctx.getRetainLiterals destType ||
        (match destType.bound with
         | some b => containsLiteralType b
         | none => false) || destType.constraints.any containsLiteralType) = false →
      isTypeSame curNarrow (stripLiteralValue srcType) = false →
      ev.assignType curNarrow (stripLiteralValue srcType) flags rc = false →
      (assignTypeToTypeVar ev destType srcType ctx flags rc).1 = false) := by
  constructor
  · have hg1 : ∀ b : Bool, (!ctx.isLocked && b) = false := by
      intro b
      rw [hlock]
      rfl
    have hg2 : (!ctx.isLocked && (match destType.scopeId with
        | some sid => ctx.hasSolveForScope sid
        | none => false)) = false := hg1 _
    unfold assignTypeToTypeVar
    split
    · rfl
    · split
      · exact assignTypeToTypeVarMain_snd ev destType srcType ctx flags rc
          true (hg1 true) hg2
      · split
        · rfl
        · split
          · rfl
          · split
            · rfl
            · split
              · rfl
              · exact assignTypeToTypeVarMain_snd ev destType srcType ctx flags
                  rc false (hg1 false) hg2
  · intro sid curNarrow hscope hsolve hskip hps hvar hinst hconstr hcontra
      hallow hentry hretain hsame hnoacc
    unfold assignTypeToTypeVar
    split
    · next heq => rw [hscope] at heq; cases heq
    · next scopeId heq =>
        rw [hscope] at heq
        injection heq with heq2
        subst heq2
        rw [if_pos hsolve]
        unfold assignTypeToTypeVarMain
        rw [if_neg (by simp [hskip]), if_neg (by simp [hps])]
        simp only [hvar, Bool.false_and, Bool.false_eq_true, if_false, hinst,
          Bool.not_true, Bool.and_false]
        rw [if_neg (by simp [hconstr])]
        unfold assignUnconstrainedTypeVar
        simp only [hretain, Bool.false_eq_true, if_false, hinst, Bool.not_true,
          hcontra, hallow, Bool.or_self, hentry, hsame, hnoacc, hlock, if_true]

/-- C6 witness: a locked context with a recorded narrow bound `str` rejects
a `bytes` source that would require widening, leaving the context
unchanged. -/
theorem assignTypeToTypeVar_locked_witness :
    (assignTypeToTypeVar demoEvaluator { name := "T", scopeId := some "s" }
      bytesInst
      (((TypeVarContext.create (some "s")).setTypeVarType
        { name := "T", scopeId := some "s" } (some strInst) none false).lock)
      .default 0).2 =
      ((TypeVarContext.create (some "s")).setTypeVarType
        { name := "T", scopeId := some "s" } (some strInst) none false).lock ∧
    (assignTypeToTypeVar demoEvaluator { name := "T", scopeId := some "s" }
      bytesInst
      (((TypeVarContext.create (some "s")).setTypeVarType
        { name := "T", scopeId := some "s" } (some strInst) none false).lock)
      .default 0).1 = false := by
  have h := assignTypeToTypeVar_locked demoEvaluator
    { name := "T", scopeId := some "s" } bytesInst
    (((TypeVarContext.create (some "s")).setTypeVarType
      { name := "T", scopeId := some "s" } (some strInst) none false).lock)
    .default 0 (by decide)
  exact ⟨h.1, h.2 "s" strInst rfl (by decide) rfl rfl rfl rfl rfl rfl rfl rfl
    (by decide) (by decide) (by decide)⟩

/-- C1 amended: in covariant mode, when widening is needed, the current
narrow bound is a union of more than `maxSubtypesForInferredType` subtypes
and the destination declares a bound, the narrow bound recorded in the
context becomes the combination of the current narrow bound with `object` —
the union of the previous subtypes together with `object`, not exactly
`object` (the union then stops growing, since later sources are assignable
to the `object` member). -/
theorem assignTypeToTypeVar_pathological_union (ev : Evaluator)
    (destType : TypeVarType) (srcType : Ty) (ctx : TypeVarContext)
    (flags : AssignFlags) (rc : Nat) (sid : String) (curNarrow cw objType : Ty)
    (hscope : destType.scopeId = some sid)
    (hsolve : ctx.hasSolveForScope sid = true)
    (hskip : flags.skipSolveTypeVars = false)
    (hps : destType.isParamSpec = false)
    (hvar : destType.isVariadic = false)
    (hinst : destType.isInstance = true)
    (hconstr : destType.constraints = [])
    (hcontra : flags.reverseTypeVarMatching = false)
    (hallow : flags.allowTypeVarNarrowing = false)
    (hlock : ctx.isLocked = false)
    (hentry : (ctx.getTypeVar destType).bind (·.narrowBound) = some curNarrow)
    (hwideentry : (ctx.getTypeVar destType).bind (·.wideBound) = none)
    (hbound : destType.bound = some cw)
    (hretain : (flags.retainLiteralsForTypeVar || ctx.getRetainLiterals destType ||
      (match destType.bound with
       | some b => containsLiteralType b
       | none => false) || destType.constraints.any containsLiteralType) = false)
    (hsame : isTypeSame curNarrow (stripLiteralValue srcType) = false)
    (hnoacc : ev.assignType curNarrow (stripLiteralValue srcType) flags rc = false)
    (hnorev : ev.assignType (stripLiteralValue srcType) curNarrow
      flags.ignoreScopeOnly rc = false)
    (hobj : ev.objectType = some objType)
    (hobjinst : objType.isClassInstance = true)
    (hbig : curNarrow.isUnion = true)
    (hlen : (curNarrow.subtypesOf).length > maxSubtypesForInferredType)
    (hts2 : isTypeSame cw (combineTypes [curNarrow, objType]) = false)
    (hcwnotv : cw.isTypeVar = false)
    (hwideok : ev.assignType (ev.makeTopLevelTypeVarsConcrete cw)
      (combineTypes [curNarrow, objType]) flags.ignoreScopeOnly rc = true)
    (hboundok : ev.assignType cw
      (ev.makeTopLevelTypeVarsConcrete (combineTypes [curNarrow, objType]))
      flags.ignoreScopeOnly rc = true) :
    assignTypeToTypeVar ev destType srcType ctx flags rc =
      (true, ctx.setTypeVarType destType
        (some (combineTypes [curNarrow, objType])) (some cw) false) ∧
    (((assignTypeToTypeVar ev destType srcType ctx flags rc).2.getTypeVar
      destType).bind (·.narrowBound)) =
      some (combineTypes [curNarrow, objType]) := by
  have hmain : assignTypeToTypeVar ev destType srcType ctx flags rc =
      (true, ctx.setTypeVarType destType
        (some (combineTypes [curNarrow, objType])) (some cw) false) := by
    unfold assignTypeToTypeVar
    split
    · next heq => rw [hscope] at heq; cases heq
    · next scopeId heq =>
        rw [hscope] at heq
        injection heq with heq2
        subst heq2
        rw [if_pos hsolve]
        unfold assignTypeToTypeVarMain
        rw [if_neg (by simp [hskip]), if_neg (by simp [hps])]
        simp only [hvar, Bool.false_and, Bool.false_eq_true, if_false, hinst,
          Bool.not_true, Bool.and_false]
        rw [if_neg (by simp [hconstr])]
        have hretain2 : (flags.retainLiteralsForTypeVar ||
            ctx.getRetainLiterals destType || containsLiteralType cw ||
            destType.constraints.any containsLiteralType) = false := by
          rw [hbound] at hretain
          exact hretain
        unfold assignUnconstrainedTypeVar
        simp only [hretain, hretain2, Bool.false_eq_true, if_false, hinst,
          Bool.not_true, hcontra, hallow, Bool.or_self, hentry, hwideentry,
          hbound, hsame, hnoacc, hlock, hvar, hnorev, hobj, hbig,
          Bool.true_and, decide_eq_true hlen, Option.isSome_some,
          Bool.and_true, hobjinst, if_true, hts2, Bool.not_false, hcwnotv,
          hwideok, hboundok, Bool.and_self]
        simp [hboundok]
  refine ⟨hmain, ?_⟩
  rw [hmain]
  show ((ctx.setTypeVarType destType _ _ _).getTypeVar destType).bind
    (·.narrowBound) = _
  rw [getTypeVar_set_self]
  rfl

/-- The bounded destination TypeVar for the pathological-union scenario. -/
def c1Dest : TypeVarType :=
  { name := "T", scopeId := some "s", bound := some objectInst }

/-- A union of 65 distinct class instances — one past the threshold. -/
def c1Union : Ty := Ty.unionTy ((List.range 65).map demoClass)

/-- A context in which `T` already has the big union as its narrow bound. -/
def c1Ctx : TypeVarContext :=
  (TypeVarContext.create (some "s")).setTypeVarType c1Dest (some c1Union) none false

set_option maxRecDepth 10000 in
/-- C1 counterexample: a widening call past the pathological threshold on a
bound destination records a narrow bound that is the previous union with
`object` appended — a union of 66 subtypes — and not exactly `object`. -/
theorem assignTypeToTypeVar_pathological_union_not_object :
    (assignTypeToTypeVar demoEvaluator c1Dest (demoClass 65) c1Ctx
      .default 0).1 = true ∧
    (((assignTypeToTypeVar demoEvaluator c1Dest (demoClass 65) c1Ctx
      .default 0).2.getTypeVar c1Dest).bind (·.narrowBound)) =
      some (Ty.unionTy ((List.range 65).map demoClass ++ [objectInst])) ∧
    Ty.unionTy ((List.range 65).map demoClass ++ [objectInst]) ≠ objectInst ∧
    (c1Union.subtypesOf).length > maxSubtypesForInferredType ∧
    (c1Dest.bound).isSome = true :=
  ⟨rfl, rfl, fun h => Ty.noConfusion h, by decide, rfl⟩

set_option maxRecDepth 10000 in
/-- C1 amended witness: the pathological-union theorem applied to the
concrete 65-subtype union against the `object`-bounded `T`. -/
theorem assignTypeToTypeVar_pathological_union_witness :
    (((assignTypeToTypeVar demoEvaluator c1Dest (demoClass 65) c1Ctx
      .default 0).2.getTypeVar c1Dest).bind (·.narrowBound)) =
      some (combineTypes [c1Union, objectInst]) :=
  (assignTypeToTypeVar_pathological_union demoEvaluator c1Dest (demoClass 65)
    c1Ctx .default 0 "s" c1Union objectInst objectInst rfl (by decide) rfl rfl
    rfl rfl rfl rfl rfl rfl rfl rfl rfl (by decide) (by decide) (by decide)
    (by decide) rfl (by decide) (by decide) (by decide) (by decide) (by decide)
    (by decide) (by decide)).2

end PyrightCore
